import Mathlib

/-!
# intro_amp.cpp : serial, flat C++ AMP and tiled C++ AMP vector addition

Shallow embedding of `src/intro_amp.cpp`.

* A `std::vector<double>` is a `List α`.  The element type is kept generic with
  an addition `[Add α]`; the source adds two `double`s and never inspects them.
  Where a statement swaps the operands of `+` it assumes commutativity of the
  addition, and the concrete scenarios use `Int` (the scenario values and their
  sums are small integers, which binary64 represents exactly).
* `int` is the 32-bit signed integer of the platforms C++ AMP targets.  A loop
  counter is a natural number that must stay `≤ INT_MAX`; incrementing it past
  `INT_MAX` is undefined behaviour and is reported as `Fault.signed_overflow`.
* `operator[]` outside the bounds of a vector or of a view is undefined
  behaviour and is reported as `Fault.out_of_bounds`.
* The C++ AMP runtime (`amp.h`) is not part of the repository.  Everything it
  decides (whether an operation raises `runtime_exception`, the order in which
  the per-index tasks run, the contents of a view after `discard_data`, the
  clock) is a field of the parameter `Runtime`.
* What a function prints and which runtime operations it performs is recorded,
  in program order, as a list of `Event`s.
-/

set_option linter.unusedVariables false

namespace IntroAmp

/-- Largest value of the 32-bit `int` used for `size` and the loop counters. -/
def INT_MAX : Nat := 2147483647

/-- Undefined behaviour the embedded code can run into. -/
inductive Fault where
  | out_of_bounds
  | signed_overflow
  deriving DecidableEq, Repr

/-- Descriptor of a compute device: the fields `report_accelerator` prints. -/
structure Accelerator where
  description : String
  device_path : String
  dedicated_memory : Nat
  has_display : Bool
  is_debug : Bool
  is_emulated : Bool
  supports_double_precision : Bool
  supports_limited_double_precision : Bool
  deriving DecidableEq, Repr

/-- Observable steps of the program, in the order the source performs them. -/
inductive Event where
  /-- a call of `steady_clock::now()` -/
  | now
  /-- construction of the device view `av1` (1), `av2` (2) or `av3` (3) -/
  | view_ctor (k : Nat)
  /-- the call `av3.discard_data()` -/
  | discard_data
  /-- the call of `parallel_for_each` -/
  | parallel_for_each
  /-- the call `av3.synchronize()` -/
  | synchronize
  /-- a read of element `i` of the first input -/
  | read_v1 (i : Nat)
  /-- a read of element `i` of the second input -/
  | read_v2 (i : Nat)
  /-- a write of element `i` of the output -/
  | write_v3 (i : Nat)
  /-- a write of element `i` of the first input; no statement of the source
  performs one (`v1` is a `const&` and `av1` an `array_view<const double>`) -/
  | write_v1 (i : Nat)
  /-- a write of element `i` of the second input; no statement of the source
  performs one (`v2` is a `const&` and `av2` an `array_view<const double>`) -/
  | write_v2 (i : Nat)
  /-- the modal error dialog `MessageBoxA(NULL, ex.what(), "Error", ...)` -/
  | message_box (what : String)
  /-- a timing line: its fixed text and the number of milliseconds -/
  | timing (text : String) (ms : Int)
  /-- the line "No accelerators found that are compatible with C++ AMP" -/
  | no_accelerators
  /-- the line "Accelerators found that are compatible with C++ AMP" -/
  | accelerators_found
  /-- the block printed by `report_accelerator a` -/
  | descriptor (a : Accelerator)
  /-- the line " default acc = " followed by the description -/
  | default_acc (description : String)
  deriving DecidableEq, Repr

/-- What a call leaves behind: the output vector, the events it performed and,
when a `runtime_exception` left the call, the message of that exception. -/
structure Run (α : Type) where
  v3 : List α
  trace : List Event
  escaped : Option String

/-! ## The serial adder -/

/-- The three element accesses of one iteration of the serial loop,
`v3[i] = v2[i] + v1[i]`. -/
def serial_accesses (i : Nat) : List Event :=
  [Event.read_v2 i, Event.read_v1 i, Event.write_v3 i]

/-- The loop `for (int i = 0; i < v3.size(); i++) v3[i] = v2[i] + v1[i];` of
`vector_add`, started at counter `i` with the events performed so far. -/
def vector_add_loop {α : Type} [Add α] (v1 v2 : List α) (i : Nat) (v3 : List α)
    (tr : List Event) : Except Fault (List α × List Event) :=
  if i < v3.length then
    match v2[i]?, v1[i]? with
    | some b, some a =>
      if i + 1 ≤ INT_MAX then
        vector_add_loop v1 v2 (i + 1) (v3.set i (b + a)) (tr ++ serial_accesses i)
      else
        Except.error Fault.signed_overflow
    | _, _ => Except.error Fault.out_of_bounds
  else
    Except.ok (v3, tr)
termination_by v3.length - i
decreasing_by simp only [List.length_set]; omega

/-- Text of the timing line of `vector_add`. -/
def serial_text : String := "Adding the vectors serially using the CPU "

/-- The function `vector_add(size, v1, v2, v3)`.  The argument `size` is not used
by the body.  `clock n` is the value of the `n`-th call of `now()`. -/
def vector_add {α : Type} [Add α] (clock : Nat → Int) (size : Int) (v1 v2 v3 : List α) :
    Except Fault (Run α) :=
  match vector_add_loop v1 v2 0 v3 [Event.now] with
  | Except.error f => Except.error f
  | Except.ok (out, tr) =>
    Except.ok ⟨out, tr ++ [Event.now, Event.timing serial_text (clock 1 - clock 0)], none⟩

/-! ## The C++ AMP runtime -/

/-- Index of one task of a tiled dispatch (`tiled_index<TS>`): the tile it
belongs to and its offset inside that tile. -/
structure tiled_index where
  tile : Nat
  loc : Nat
  deriving DecidableEq, Repr

/-- Modelled from the spec: `t_idx.global[0]` is computed by `amp.h`, which is
not among the sources; the spec (section 4.4) gives the flat index of a tiled
task for tile size `TS` as tile index times tile size plus offset within the
tile. -/
def tiled_index.global (TS : Nat) (t : tiled_index) : Nat :=
  t.tile * TS + t.loc

/-- Everything the C++ AMP runtime decides during one call of an adder.  An
`Option String` is the message of the `runtime_exception` the operation raises,
`none` when it raises nothing. -/
structure Runtime (α : Type) where
  /-- constructing view `k` with the given extent over a container of the
  given number of elements -/
  view_ctor : Nat → Int → Nat → Option String
  /-- the call `av3.discard_data()` -/
  discard_data : Option String
  /-- the flat `parallel_for_each` over an extent -/
  dispatch : Int → Option String
  /-- the tiled `parallel_for_each` over an extent with a tile size -/
  dispatch_tiled : Int → Nat → Option String
  /-- the call `av3.synchronize()` -/
  synchronize : Option String
  /-- element `i` of the output view after `discard_data`, which leaves the
  contents of the view unspecified -/
  stale : Nat → α
  /-- the order in which the tasks of a flat dispatch are run -/
  schedule : List Nat → List Nat
  /-- the order in which the tasks of a tiled dispatch are run -/
  schedule_tiled : List tiled_index → List tiled_index
  /-- value of the `n`-th call of `now()` during the adder call -/
  clock : Nat → Int

/-- The runtime raises nothing while the three views of a call with extent
`size` over containers of `n1`, `n2`, `n3` elements are constructed and the
output view is discarded. -/
def Runtime.stages {α : Type} (rt : Runtime α) (size : Int) (n1 n2 n3 : Nat) : Prop :=
  rt.view_ctor 1 size n1 = none ∧ rt.view_ctor 2 size n2 = none ∧
  rt.view_ctor 3 size n3 = none ∧ rt.discard_data = none

/-- The runtime raises nothing in the `try` block of the flat adder. -/
def Runtime.dispatches {α : Type} (rt : Runtime α) (size : Int) : Prop :=
  rt.dispatch size = none ∧ rt.synchronize = none

/-- The runtime raises nothing in the `try` block of the tiled adder. -/
def Runtime.dispatches_tiled {α : Type} (rt : Runtime α) (size : Int) (ts : Nat) : Prop :=
  rt.dispatch_tiled size ts = none ∧ rt.synchronize = none

instance {α : Type} (rt : Runtime α) (size : Int) (n1 n2 n3 : Nat) :
    Decidable (rt.stages size n1 n2 n3) := by
  unfold Runtime.stages; infer_instance

instance {α : Type} (rt : Runtime α) (size : Int) : Decidable (rt.dispatches size) := by
  unfold Runtime.dispatches; infer_instance

instance {α : Type} (rt : Runtime α) (size : Int) (ts : Nat) :
    Decidable (rt.dispatches_tiled size ts) := by
  unfold Runtime.dispatches_tiled; infer_instance

/-- The three element accesses of one task, `av3[idx] = av1[idx] + av2[idx]`. -/
def kernel_accesses (idx : Nat) : List Event :=
  [Event.read_v1 idx, Event.read_v2 idx, Event.write_v3 idx]

/-- The kernel body `av3[idx] = av1[idx] + av2[idx]` on the views. -/
def kernel {α : Type} [Add α] (av1 av2 : List α) (idx : Nat) (st : List α × List Event) :
    Except Fault (List α × List Event) :=
  match av1[idx]?, av2[idx]? with
  | some a, some b =>
    if idx < st.1.length then
      Except.ok (st.1.set idx (a + b), st.2 ++ kernel_accesses idx)
    else
      Except.error Fault.out_of_bounds
  | _, _ => Except.error Fault.out_of_bounds

/-- Runs the kernel once for every index of `tasks`, in list order. -/
def run_tasks {α : Type} [Add α] (av1 av2 : List α) :
    List Nat → List α × List Event → Except Fault (List α × List Event)
  | [], st => Except.ok st
  | idx :: rest, st =>
    match kernel av1 av2 idx st with
    | Except.error f => Except.error f
    | Except.ok st1 => run_tasks av1 av2 rest st1

/-- The compute domain of the flat dispatch over `av3.extent`: one index per
element of the extent. -/
def flat_domain (size : Int) : List Nat :=
  List.range size.toNat

/-- Modelled from the spec: `extent.tile<TS>()` is computed by `amp.h`, which is
not among the sources; the spec (section 4.4) describes the compute domain of
the tiled dispatch as the extent cut into groups of `TS` consecutive indices,
every task being a tile and an offset in it.  Only whole tiles exist: the
source has no code for a remainder. -/
def tiled_domain (size : Int) (TS : Nat) : List tiled_index :=
  (List.range (size.toNat / TS)).flatMap
    (fun t => (List.range TS).map (fun o => tiled_index.mk t o))

/-- What the `try` block produced: the views were written and synchronized, or
a `runtime_exception` was raised in it. -/
inductive Tried (α : Type) where
  | done (av3 : List α) (tr : List Event)
  | raised (what : String) (tr : List Event)

/-- The `try` block of `vector_add_amp`: the dispatch
`parallel_for_each(av3.extent, [=](index<1> idx) ...)` and `av3.synchronize()`. -/
def try_amp {α : Type} [Add α] (rt : Runtime α) (size : Int) (av1 av2 av3 : List α) :
    Except Fault (Tried α) :=
  match rt.dispatch size with
  | some what => Except.ok (Tried.raised what [Event.parallel_for_each])
  | none =>
    match run_tasks av1 av2 (rt.schedule (flat_domain size)) (av3, [Event.parallel_for_each]) with
    | Except.error f => Except.error f
    | Except.ok (out, tr) =>
      match rt.synchronize with
      | some what => Except.ok (Tried.raised what (tr ++ [Event.synchronize]))
      | none => Except.ok (Tried.done out (tr ++ [Event.synchronize]))

/-- The `try` block of `vector_add_tiled_amp`: the dispatch
`parallel_for_each(av3.extent.tile<TS>(), [=](tiled_index<TS> t_idx) ...)`,
whose body takes `idx = t_idx.global[0]`, and `av3.synchronize()`. -/
def try_tiled_amp {α : Type} [Add α] (rt : Runtime α) (TS : Nat) (size : Int)
    (av1 av2 av3 : List α) : Except Fault (Tried α) :=
  match rt.dispatch_tiled size TS with
  | some what => Except.ok (Tried.raised what [Event.parallel_for_each])
  | none =>
    match run_tasks av1 av2 ((rt.schedule_tiled (tiled_domain size TS)).map (tiled_index.global TS))
        (av3, [Event.parallel_for_each]) with
    | Except.error f => Except.error f
    | Except.ok (out, tr) =>
      match rt.synchronize with
      | some what => Except.ok (Tried.raised what (tr ++ [Event.synchronize]))
      | none => Except.ok (Tried.done out (tr ++ [Event.synchronize]))

/-- The code both parallel adders share around their `try` block: the three
views and `discard_data` (before the clock is started and outside the `try`),
`start = now()`, the `try` block with its `catch` handler showing the message
box, `end = now()` and the timing line.  After a caught exception the contents
of `v3` are whatever the runtime left; the embedding leaves `v3` as it was. -/
def amp_adder {α : Type} [Add α] (rt : Runtime α) (text : String)
    (body : List α → List α → List α → Except Fault (Tried α))
    (size : Int) (v1 v2 v3 : List α) : Except Fault (Run α) :=
  match rt.view_ctor 1 size v1.length with
  | some what => Except.ok ⟨v3, [Event.view_ctor 1], some what⟩
  | none =>
  match rt.view_ctor 2 size v2.length with
  | some what => Except.ok ⟨v3, [Event.view_ctor 1, Event.view_ctor 2], some what⟩
  | none =>
  match rt.view_ctor 3 size v3.length with
  | some what =>
    Except.ok ⟨v3, [Event.view_ctor 1, Event.view_ctor 2, Event.view_ctor 3], some what⟩
  | none =>
  match rt.discard_data with
  | some what =>
    Except.ok ⟨v3, [Event.view_ctor 1, Event.view_ctor 2, Event.view_ctor 3,
      Event.discard_data], some what⟩
  | none =>
  let staged := [Event.view_ctor 1, Event.view_ctor 2, Event.view_ctor 3,
    Event.discard_data, Event.now]
  let av3 := (List.range (min size.toNat v3.length)).map rt.stale
  match body (v1.take size.toNat) (v2.take size.toNat) av3 with
  | Except.error f => Except.error f
  | Except.ok (Tried.raised what tr) =>
    Except.ok ⟨v3, staged ++ tr ++ [Event.message_box what, Event.now,
      Event.timing text (rt.clock 1 - rt.clock 0)], none⟩
  | Except.ok (Tried.done out tr) =>
    Except.ok ⟨out ++ v3.drop size.toNat, staged ++ tr ++ [Event.now,
      Event.timing text (rt.clock 1 - rt.clock 0)], none⟩

/-- Text of the timing line of `vector_add_amp`. -/
def amp_text : String := "Adding the vectors using AMP (data transfer and compute) takes "

/-- Text of the timing line of `vector_add_tiled_amp`. -/
def tiled_text : String :=
  "Adding the vectors using Tiled AMP (data transfer and compute) takes "

/-- The function `vector_add_amp(size, v1, v2, v3)`. -/
def vector_add_amp {α : Type} [Add α] (rt : Runtime α) (size : Int) (v1 v2 v3 : List α) :
    Except Fault (Run α) :=
  amp_adder rt amp_text (try_amp rt size) size v1 v2 v3

/-- The constant `const int TS = 1024;` of `vector_add_tiled_amp`. -/
def TS : Nat := 1024

/-- The function `vector_add_tiled_amp(size, v1, v2, v3)`. -/
def vector_add_tiled_amp {α : Type} [Add α] (rt : Runtime α) (size : Int)
    (v1 v2 v3 : List α) : Except Fault (Run α) :=
  amp_adder rt tiled_text (try_tiled_amp rt TS size) size v1 v2 v3

/-! ## The device enumerator -/

/-- The function `report_accelerator(a)`: one block with the description, the
device path, the dedicated memory and the five flags of `a`. -/
def report_accelerator (a : Accelerator) : List Event :=
  [Event.descriptor a]

/-- The loop `for (int i = 0; i < accls.size(); i++) report_accelerator(accls[i]);`
of `list_accelerators`, started at counter `i`. -/
def list_accelerators_loop (accls : List Accelerator) (i : Nat) (tr : List Event) :
    Except Fault (List Event) :=
  if i < accls.length then
    match accls[i]? with
    | some a =>
      if i + 1 ≤ INT_MAX then
        list_accelerators_loop accls (i + 1) (tr ++ report_accelerator a)
      else
        Except.error Fault.signed_overflow
    | none => Except.error Fault.out_of_bounds
  else
    Except.ok tr
termination_by accls.length - i

/-- The function `list_accelerators()`: `accls` is what its own call of
`accelerator::get_all()` returns and `dflt` is the default accelerator. -/
def list_accelerators (accls : List Accelerator) (dflt : Accelerator) :
    Except Fault (List Event) :=
  match list_accelerators_loop accls 0 [] with
  | Except.error f => Except.error f
  | Except.ok tr => Except.ok (tr ++ [Event.default_acc dflt.description])

/-- The function `query_AMP_support()`: `get_all n` is what the `n`-th call of
`accelerator::get_all()` returns (the function calls it once itself and
`list_accelerators` calls it again). -/
def query_AMP_support (get_all : Nat → List Accelerator) (dflt : Accelerator) :
    Except Fault (List Event) :=
  if (get_all 0).isEmpty then
    Except.ok [Event.no_accelerators]
  else
    match list_accelerators (get_all 1) dflt with
    | Except.error f => Except.error f
    | Except.ok tr => Except.ok (Event.accelerators_found :: tr)

/-! ## The harness -/

/-- A runtime that raises nothing, runs the tasks in domain order and leaves 0
in a discarded view. -/
def quiet : Runtime Int where
  view_ctor := fun _ _ _ => none
  discard_data := none
  dispatch := fun _ => none
  dispatch_tiled := fun _ _ => none
  synchronize := none
  stale := fun _ => 0
  schedule := fun d => d
  schedule_tiled := fun d => d
  clock := fun n => 5 * n

/-! ## Definitions used in the statements -/

/-- The elementwise sum as the serial loop forms it: `v2[i] + v1[i]`. -/
def serial_sum {α : Type} [Add α] (v1 v2 : List α) : List α :=
  List.zipWith (fun a b => b + a) v1 v2

/-- The elementwise sum as the kernel forms it: `av1[idx] + av2[idx]`. -/
def parallel_sum {α : Type} [Add α] (v1 v2 : List α) : List α :=
  List.zipWith (fun a b => a + b) v1 v2

/-- Events of a call of a parallel adder up to the start of the `try` block. -/
def staged_events : List Event :=
  [Event.view_ctor 1, Event.view_ctor 2, Event.view_ctor 3, Event.discard_data, Event.now]

/-- The tasks of `k` whole tiles of `ts` indices, in domain order. -/
def tiles (k ts : Nat) : List tiled_index :=
  (List.range k).flatMap (fun t => (List.range ts).map (fun o => tiled_index.mk t o))

/-- The flat indices a tiled dispatch runs, in the order the runtime picks. -/
def tiled_tasks {α : Type} (rt : Runtime α) (size : Int) (ts : Nat) : List Nat :=
  (rt.schedule_tiled (tiled_domain size ts)).map (tiled_index.global ts)

/-- The events of a dispatch: only the call, the element accesses and the
synchronization. -/
def inner_event : Event → Bool
  | Event.parallel_for_each => true
  | Event.synchronize => true
  | Event.read_v1 _ => true
  | Event.read_v2 _ => true
  | Event.write_v3 _ => true
  | _ => false

/-- Events of a dispatch that ran the tasks `tasks` and was synchronized. -/
def dispatch_events (tasks : List Nat) : List Event :=
  [Event.parallel_for_each] ++ tasks.flatMap kernel_accesses ++ [Event.synchronize]

/-- The last events of every call that reaches the end of a parallel adder. -/
def closing_events {α : Type} (rt : Runtime α) (text : String) : List Event :=
  [Event.now, Event.timing text (rt.clock 1 - rt.clock 0)]

/-- What a call of a parallel adder leaves when its views were staged: `tasks`
are the flat indices the dispatch runs, `out` the output view after them. -/
def adder_result {α : Type} (rt : Runtime α) (text : String) (raise : Option String)
    (tasks : List Nat) (v3 out : List α) : Run α :=
  match raise with
  | some what =>
    ⟨v3, staged_events ++ [Event.parallel_for_each] ++
      (Event.message_box what :: closing_events rt text), none⟩
  | none =>
    match rt.synchronize with
    | some what =>
      ⟨v3, staged_events ++ dispatch_events tasks ++
        (Event.message_box what :: closing_events rt text), none⟩
    | none => ⟨out, staged_events ++ dispatch_events tasks ++ closing_events rt text, none⟩

/-- Events of a call of the serial adder on vectors of `n` elements. -/
def serial_events (clock : Nat → Int) (n : Nat) : List Event :=
  [Event.now] ++ (List.range' 0 n).flatMap serial_accesses ++
    [Event.now, Event.timing serial_text (clock 1 - clock 0)]

/-- A runtime that raises nothing, leaves 9 in a discarded view and runs the
tasks of a dispatch last to first. -/
def backwards : Runtime Int where
  view_ctor := fun _ _ _ => none
  discard_data := none
  dispatch := fun _ => none
  dispatch_tiled := fun _ _ => none
  synchronize := none
  stale := fun _ => 9
  schedule := fun d => d.reverse
  schedule_tiled := fun d => d.reverse
  clock := fun n => 7 * n

/-- A runtime that checks its arguments as C++ AMP does: a view needs a positive
extent and a container of at least that many elements, a dispatch needs a
positive extent and a tiled dispatch an extent that the tile size divides.
It leaves 0 in a discarded view and runs the tasks in domain order. -/
def strict : Runtime Int where
  view_ctor := fun _ e n =>
    if e ≤ 0 then some "invalid extent"
    else if (n : Int) < e then some "container smaller than the view" else none
  discard_data := none
  dispatch := fun e => if e ≤ 0 then some "invalid compute domain" else none
  dispatch_tiled := fun e ts =>
    if e ≤ 0 then some "invalid compute domain"
    else if e % (ts : Int) = 0 then none else some "extent not divisible by the tile size"
  synchronize := none
  stale := fun _ => 0
  schedule := fun d => d
  schedule_tiled := fun d => d
  clock := fun n => 5 * n

/-- A runtime on which the construction of the output view raises. -/
def failing_view : Runtime Int where
  view_ctor := fun k _ _ => if k = 3 then some "out of memory" else none
  discard_data := none
  dispatch := fun _ => none
  dispatch_tiled := fun _ _ => none
  synchronize := none
  stale := fun _ => 0
  schedule := fun d => d
  schedule_tiled := fun d => d
  clock := fun n => 5 * n

/-- A runtime on which every dispatch raises. -/
def failing_dispatch : Runtime Int where
  view_ctor := fun _ _ _ => none
  discard_data := none
  dispatch := fun _ => some "double precision is not supported"
  dispatch_tiled := fun _ _ => some "double precision is not supported"
  synchronize := none
  stale := fun _ => 0
  schedule := fun d => d
  schedule_tiled := fun d => d
  clock := fun n => 5 * n

/-- An accelerator for the scenarios. -/
def gpu : Accelerator :=
  ⟨"GPU", "PCI/0", 4096, true, false, false, true, true⟩

/-- The software accelerator for the scenarios. -/
def warp : Accelerator :=
  ⟨"Software adapter", "direct3d/warp", 0, false, false, true, true, true⟩

/-- The events a parallel adder performs between its two timestamps: the
dispatch, the element accesses, the synchronization and the error dialog. -/
def timed_event : Event → Bool
  | Event.message_box _ => true
  | e => inner_event e

/-- The events that modify an input vector. -/
def writes_input : Event → Bool
  | Event.write_v1 _ => true
  | Event.write_v2 _ => true
  | _ => false

/-- No event of the list modifies an input vector: `v1` and `v2` are as they
were when the events started. -/
def inputs_untouched (tr : List Event) : Bool :=
  tr.all (fun e => !writes_input e)

/-! ## The serial loop -/

theorem getElem?_serial_sum {α : Type} [Add α] (v1 v2 : List α) (j : Nat)
    (h1 : j < v1.length) (h2 : j < v2.length) :
    (serial_sum v1 v2)[j]? = some (v2[j] + v1[j]) := by
  simp [serial_sum, List.getElem?_zipWith, List.getElem?_eq_getElem h1,
    List.getElem?_eq_getElem h2]

theorem getElem?_serial_sum_none {α : Type} [Add α] (v1 v2 : List α) (j : Nat)
    (h1 : v1.length ≤ j) : (serial_sum v1 v2)[j]? = none := by
  simp [serial_sum, List.getElem?_zipWith, List.getElem?_eq_none h1]

/-- On vectors of one length that an `int` can count, the serial loop started
at `i` ends without a fault, performs the accesses of the iterations `i`,
`i + 1`, ... in this order and overwrites exactly the elements from `i` on. -/
theorem vector_add_loop_ok {α : Type} [Add α] (v1 v2 : List α) :
    ∀ (k i : Nat) (v3 : List α) (tr : List Event), v3.length - i = k →
      v1.length = v3.length → v2.length = v3.length → v3.length ≤ INT_MAX →
      ∃ out, vector_add_loop v1 v2 i v3 tr
          = Except.ok (out, tr ++ (List.range' i k).flatMap serial_accesses) ∧
        out.length = v3.length ∧
        ∀ j, out[j]? = if i ≤ j then (serial_sum v1 v2)[j]? else v3[j]? := by
  intro k
  induction k with
  | zero =>
    intro i v3 tr hk h1 h2 _
    have hi : ¬ i < v3.length := by omega
    refine ⟨v3, ?_, rfl, ?_⟩
    · rw [vector_add_loop]; simp [hi]
    · intro j
      split
      · rw [getElem?_serial_sum_none v1 v2 j (by omega), List.getElem?_eq_none (by omega)]
      · rfl
  | succ k ih =>
    intro i v3 tr hk h1 h2 hmax
    have hi : i < v3.length := by omega
    have hstep : i + 1 ≤ INT_MAX := by omega
    obtain ⟨out, hrun, hlen, hget⟩ := ih (i + 1) (v3.set i (v2[i] + v1[i]))
      (tr ++ serial_accesses i) (by simp; omega) (by simpa using h1) (by simpa using h2)
      (by simpa using hmax)
    refine ⟨out, ?_, by simpa using hlen, ?_⟩
    · rw [vector_add_loop]
      simp only [hi, if_true, List.getElem?_eq_getElem (h2 ▸ hi),
        List.getElem?_eq_getElem (h1 ▸ hi), hstep]
      rw [hrun, List.range'_succ, List.flatMap_cons, List.append_assoc]
    · intro j
      rw [hget j]
      by_cases hj : i + 1 ≤ j
      · have : i ≤ j := by omega
        simp [hj, this]
      · by_cases hij : i = j
        · subst hij
          simp only [hj, if_false, le_refl, if_true]
          rw [List.getElem?_set_self (by simpa using hi),
            getElem?_serial_sum v1 v2 i (h1 ▸ hi) (h2 ▸ hi)]
        · have : ¬ i ≤ j := by omega
          simp only [hj, this, if_false]
          rw [List.getElem?_set_ne hij]

/-- On vectors of one length that an `int` cannot count, the loop counter
overflows: the serial loop ends in undefined behaviour. -/
theorem vector_add_loop_overflow {α : Type} [Add α] (v1 v2 : List α) :
    ∀ (k i : Nat) (v3 : List α) (tr : List Event), INT_MAX - i = k → i ≤ INT_MAX →
      v1.length = v3.length → v2.length = v3.length → INT_MAX < v3.length →
      vector_add_loop v1 v2 i v3 tr = Except.error Fault.signed_overflow := by
  intro k
  induction k with
  | zero =>
    intro i v3 tr hk hi h1 h2 hbig
    have hlt : i < v3.length := by omega
    have hstep : ¬ i + 1 ≤ INT_MAX := by omega
    rw [vector_add_loop]
    simp only [hlt, if_true, List.getElem?_eq_getElem (h2 ▸ hlt),
      List.getElem?_eq_getElem (h1 ▸ hlt), hstep, if_false]
  | succ k ih =>
    intro i v3 tr hk hi h1 h2 hbig
    have hlt : i < v3.length := by omega
    have hstep : i + 1 ≤ INT_MAX := by omega
    rw [vector_add_loop]
    simp only [hlt, if_true, List.getElem?_eq_getElem (h2 ▸ hlt),
      List.getElem?_eq_getElem (h1 ▸ hlt), hstep]
    exact ih (i + 1) _ _ (by omega) hstep (by simpa using h1) (by simpa using h2)
      (by simpa using hbig)

/-! ## The kernel and the dispatch -/

theorem getElem?_parallel_sum {α : Type} [Add α] (v1 v2 : List α) (j : Nat)
    (h1 : j < v1.length) (h2 : j < v2.length) :
    (parallel_sum v1 v2)[j]? = some (v1[j] + v2[j]) := by
  simp [parallel_sum, List.getElem?_zipWith, List.getElem?_eq_getElem h1,
    List.getElem?_eq_getElem h2]

theorem length_parallel_sum {α : Type} [Add α] (v1 v2 : List α) (n : Nat)
    (h1 : v1.length = n) (h2 : v2.length = n) : (parallel_sum v1 v2).length = n := by
  simp [parallel_sum, h1, h2]

/-- With addition commutative the serial loop and the kernel form one sum. -/
theorem serial_sum_eq_parallel_sum {α : Type} [Add α] (hc : ∀ a b : α, a + b = b + a)
    (v1 v2 : List α) : serial_sum v1 v2 = parallel_sum v1 v2 := by
  unfold serial_sum parallel_sum
  congr 1
  funext a b
  exact hc b a

/-- Tasks whose indices lie inside views of one length run without a fault, in
any order and with any repetition; an element of the output view is the sum
when a task had its index and is untouched otherwise. -/
theorem run_tasks_ok {α : Type} [Add α] (av1 av2 : List α) (n : Nat)
    (h1 : av1.length = n) (h2 : av2.length = n) :
    ∀ (tasks : List Nat) (av3 : List α) (tr : List Event), (∀ t ∈ tasks, t < n) →
      av3.length = n →
      ∃ out, run_tasks av1 av2 tasks (av3, tr)
          = Except.ok (out, tr ++ tasks.flatMap kernel_accesses) ∧
        out.length = n ∧
        ∀ j, out[j]? = if j ∈ tasks then (parallel_sum av1 av2)[j]? else av3[j]? := by
  intro tasks
  induction tasks with
  | nil =>
    intro av3 tr _ h3
    exact ⟨av3, by simp [run_tasks], h3, by simp⟩
  | cons idx rest ih =>
    intro av3 tr hin h3
    have hidx : idx < n := hin idx (by simp)
    have hi1 : idx < av1.length := by omega
    have hi2 : idx < av2.length := by omega
    have hi3 : idx < av3.length := by omega
    obtain ⟨out, hrun, hlen, hget⟩ := ih (av3.set idx (av1[idx] + av2[idx]))
      (tr ++ kernel_accesses idx) (fun t ht => hin t (by simp [ht])) (by simpa using h3)
    refine ⟨out, ?_, hlen, ?_⟩
    · simp only [run_tasks, kernel, List.getElem?_eq_getElem hi1,
        List.getElem?_eq_getElem hi2, hi3, if_true]
      rw [hrun, List.flatMap_cons, List.append_assoc]
    · intro j
      rw [hget j]
      by_cases hj : j ∈ rest
      · simp [hj]
      · by_cases hij : idx = j
        · subst hij
          simp only [hj, if_false, List.mem_cons, true_or, if_true]
          rw [List.getElem?_set_self hi3, getElem?_parallel_sum av1 av2 idx hi1 hi2]
        · have hne : j ≠ idx := fun h => hij h.symm
          simp only [hj, if_false, List.mem_cons, hne, false_or]
          rw [List.getElem?_set_ne hij]

/-- Tasks that are the indices `0 .. n-1`, each at least once and in any order,
turn the output view into the elementwise sum, whatever it held before. -/
theorem run_tasks_cover {α : Type} [Add α] (av1 av2 av3 : List α) (n : Nat)
    (h1 : av1.length = n) (h2 : av2.length = n) (h3 : av3.length = n) (tasks : List Nat)
    (tr : List Event) (hin : ∀ t, t ∈ tasks ↔ t < n) :
    run_tasks av1 av2 tasks (av3, tr)
      = Except.ok (parallel_sum av1 av2, tr ++ tasks.flatMap kernel_accesses) := by
  obtain ⟨out, hrun, hlen, hget⟩ :=
    run_tasks_ok av1 av2 n h1 h2 tasks av3 tr (fun t ht => (hin t).1 ht) h3
  have : out = parallel_sum av1 av2 := by
    apply List.ext_getElem?
    intro j
    rw [hget j]
    by_cases hj : j < n
    · simp [(hin j).2 hj]
    · have hnot : ¬ j ∈ tasks := fun h => hj ((hin j).1 h)
      simp only [hnot, if_false]
      rw [List.getElem?_eq_none (by omega),
        List.getElem?_eq_none (by rw [length_parallel_sum av1 av2 n h1 h2]; omega)]
  rw [hrun, this]

/-- A parallel adder whose views are staged and whose `try` block completes
copies the output view back and prints its timing line. -/
theorem amp_adder_done {α : Type} [Add α] (rt : Runtime α) (text : String)
    (body : List α → List α → List α → Except Fault (Tried α)) (size : Int)
    (v1 v2 v3 out : List α) (tr : List Event)
    (hs : rt.stages size v1.length v2.length v3.length)
    (hb : body (v1.take size.toNat) (v2.take size.toNat)
      ((List.range (min size.toNat v3.length)).map rt.stale) = Except.ok (Tried.done out tr)) :
    amp_adder rt text body size v1 v2 v3
      = Except.ok ⟨out ++ v3.drop size.toNat, staged_events ++ tr ++
          [Event.now, Event.timing text (rt.clock 1 - rt.clock 0)], none⟩ := by
  obtain ⟨hv1, hv2, hv3, hd⟩ := hs
  simp only [amp_adder, hv1, hv2, hv3, hd, hb, staged_events]

/-- A parallel adder whose views are staged and whose `try` block raises shows
the message box and still prints its timing line; nothing leaves the call. -/
theorem amp_adder_raised {α : Type} [Add α] (rt : Runtime α) (text : String)
    (body : List α → List α → List α → Except Fault (Tried α)) (size : Int)
    (v1 v2 v3 : List α) (what : String) (tr : List Event)
    (hs : rt.stages size v1.length v2.length v3.length)
    (hb : body (v1.take size.toNat) (v2.take size.toNat)
      ((List.range (min size.toNat v3.length)).map rt.stale)
        = Except.ok (Tried.raised what tr)) :
    amp_adder rt text body size v1 v2 v3
      = Except.ok ⟨v3, staged_events ++ tr ++ [Event.message_box what, Event.now,
          Event.timing text (rt.clock 1 - rt.clock 0)], none⟩ := by
  obtain ⟨hv1, hv2, hv3, hd⟩ := hs
  simp only [amp_adder, hv1, hv2, hv3, hd, hb, staged_events]

/-! ## The tiled compute domain -/

theorem tiled_domain_eq (size : Int) (ts : Nat) :
    tiled_domain size ts = tiles (size.toNat / ts) ts := rfl

/-- The flat indices of the tasks of `k` whole tiles are `0 .. k * ts - 1`, in
this order. -/
theorem tiles_global (ts : Nat) : ∀ k : Nat,
    (tiles k ts).map (tiled_index.global ts) = List.range (k * ts) := by
  intro k
  induction k with
  | zero => simp [tiles]
  | succ k ih =>
    have hlast : ((List.range ts).map (fun o => tiled_index.mk k o)).map (tiled_index.global ts)
        = (List.range ts).map (fun x => k * ts + x) := by
      rw [List.map_map]; rfl
    have hsplit : tiles (k + 1) ts
        = tiles k ts ++ (List.range ts).map (fun o => tiled_index.mk k o) := by
      simp [tiles, List.range_succ, List.flatMap_append]
    rw [hsplit, List.map_append, ih, hlast, Nat.succ_mul, List.range_add]

theorem mem_tiles (k ts : Nat) (t : tiled_index) :
    t ∈ tiles k ts ↔ t.tile < k ∧ t.loc < ts := by
  unfold tiles
  simp only [List.mem_flatMap, List.mem_map, List.mem_range]
  constructor
  · rintro ⟨a, ha, o, ho, rfl⟩
    exact ⟨ha, ho⟩
  · rintro ⟨h1, h2⟩
    exact ⟨t.tile, h1, t.loc, h2, rfl⟩

/-- No task occurs twice in the tiled compute domain. -/
theorem tiles_nodup (k ts : Nat) : (tiles k ts).Nodup := by
  apply List.Nodup.of_map (tiled_index.global ts)
  rw [tiles_global]
  exact List.nodup_range _

/-- The flat indices of a tiled dispatch are, up to order, `0 .. k * ts - 1`
for `k` the number of whole tiles in the extent. -/
theorem tiled_tasks_perm {α : Type} (rt : Runtime α) (size : Int) (ts : Nat)
    (hs : (rt.schedule_tiled (tiled_domain size ts)).Perm (tiled_domain size ts)) :
    (tiled_tasks rt size ts).Perm (List.range (size.toNat / ts * ts)) := by
  unfold tiled_tasks
  have h := List.Perm.map (tiled_index.global ts) hs
  rwa [tiled_domain_eq, tiles_global] at h

/-- The number of writes of element `i` among the accesses of a task list is the
number of tasks with index `i`. -/
theorem count_write_kernel (i : Nat) : ∀ tasks : List Nat,
    (tasks.flatMap kernel_accesses).count (Event.write_v3 i) = tasks.count i := by
  intro tasks
  induction tasks with
  | nil => rfl
  | cons t rest ih =>
    rw [List.flatMap_cons, List.count_append, ih, List.count_cons]
    by_cases h : t = i
    · subst h; simp [kernel_accesses, Nat.add_comm]
    · have h2 : ¬ i = t := fun e => h e.symm
      simp [kernel_accesses, h, h2]

theorem inner_kernel_accesses (tasks : List Nat) :
    ∀ e ∈ tasks.flatMap kernel_accesses, inner_event e = true := by
  intro e he
  rw [List.mem_flatMap] at he
  obtain ⟨t, _, ht⟩ := he
  simp only [kernel_accesses, List.mem_cons, List.mem_singleton, List.not_mem_nil, or_false] at ht
  rcases ht with rfl | rfl | rfl <;> rfl

/-! ## The parallel adders, characterized -/

theorem amp_adder_run {α : Type} [Add α] (rt : Runtime α) (text : String)
    (body : List α → List α → List α → Except Fault (Tried α)) (size : Int)
    (v1 v2 v3 : List α) (n : Nat) (hn : size.toNat = n) (h1 : v1.length = n)
    (h2 : v2.length = n) (h3 : v3.length = n) (hst : rt.stages size n n n)
    (raise : Option String) (tasks : List Nat) (out : List α)
    (hb : body v1 v2 ((List.range n).map rt.stale) =
      match raise with
      | some what => Except.ok (Tried.raised what [Event.parallel_for_each])
      | none =>
        match rt.synchronize with
        | some what => Except.ok (Tried.raised what (dispatch_events tasks))
        | none => Except.ok (Tried.done out (dispatch_events tasks))) :
    amp_adder rt text body size v1 v2 v3
      = Except.ok (adder_result rt text raise tasks v3 out) := by
  have hst2 : rt.stages size v1.length v2.length v3.length := by rw [h1, h2, h3]; exact hst
  have e1 : v1.take size.toNat = v1 := List.take_of_length_le (by omega)
  have e2 : v2.take size.toNat = v2 := List.take_of_length_le (by omega)
  have e3 : min size.toNat v3.length = n := by omega
  have e4 : v3.drop size.toNat = [] := List.drop_of_length_le (by omega)
  cases raise with
  | some what =>
    rw [amp_adder_raised rt text body size v1 v2 v3 what [Event.parallel_for_each] hst2
      (by rw [e1, e2, e3]; exact hb)]
    simp [adder_result, closing_events]
  | none =>
    cases hsy : rt.synchronize with
    | some what =>
      rw [hsy] at hb
      rw [amp_adder_raised rt text body size v1 v2 v3 what (dispatch_events tasks) hst2
        (by rw [e1, e2, e3]; exact hb)]
      simp [adder_result, closing_events, hsy]
    | none =>
      rw [hsy] at hb
      rw [amp_adder_done rt text body size v1 v2 v3 out (dispatch_events tasks) hst2
        (by rw [e1, e2, e3]; exact hb)]
      simp [adder_result, closing_events, hsy, e4]

/-- The flat adder on vectors of `size` elements, its views staged and its
tasks run once each in any order: no fault, and the call leaves exactly
`adder_result`, the output being the elementwise sum when nothing was raised. -/
theorem vector_add_amp_run {α : Type} [Add α] (rt : Runtime α) (size : Int)
    (v1 v2 v3 : List α) (n : Nat) (hn : size.toNat = n) (h1 : v1.length = n)
    (h2 : v2.length = n) (h3 : v3.length = n) (hst : rt.stages size n n n)
    (hs : (rt.schedule (flat_domain size)).Perm (flat_domain size)) :
    vector_add_amp rt size v1 v2 v3
      = Except.ok (adder_result rt amp_text (rt.dispatch size)
          (rt.schedule (flat_domain size)) v3 (parallel_sum v1 v2)) := by
  unfold vector_add_amp
  apply amp_adder_run rt amp_text _ size v1 v2 v3 n hn h1 h2 h3 hst
  unfold try_amp
  cases hd : rt.dispatch size with
  | some what => rfl
  | none =>
    have hin : ∀ t, t ∈ rt.schedule (flat_domain size) ↔ t < n := by
      intro t
      rw [hs.mem_iff, flat_domain, List.mem_range, hn]
    rw [run_tasks_cover v1 v2 _ n h1 h2 (by simp) _ _ hin]
    cases rt.synchronize <;> simp [dispatch_events]

/-- The tiled adder on vectors of `size` elements, its views staged and its
tasks run once each in any order: no fault, and the call leaves exactly
`adder_result` for some output view `out`, which is the elementwise sum when
the tile size divides the number of elements. -/
theorem vector_add_tiled_amp_run {α : Type} [Add α] (rt : Runtime α) (size : Int)
    (v1 v2 v3 : List α) (n : Nat) (hn : size.toNat = n) (h1 : v1.length = n)
    (h2 : v2.length = n) (h3 : v3.length = n) (hst : rt.stages size n n n)
    (hs : (rt.schedule_tiled (tiled_domain size TS)).Perm (tiled_domain size TS)) :
    ∃ out : List α, (n % TS = 0 → out = parallel_sum v1 v2) ∧
      vector_add_tiled_amp rt size v1 v2 v3
        = Except.ok (adder_result rt tiled_text (rt.dispatch_tiled size TS)
            (tiled_tasks rt size TS) v3 out) := by
  have hperm := tiled_tasks_perm rt size TS hs
  rw [hn] at hperm
  have hle : n / TS * TS ≤ n := Nat.div_mul_le_self n TS
  have hin : ∀ t ∈ tiled_tasks rt size TS, t < n := by
    intro t ht
    have := (hperm.mem_iff).1 ht
    rw [List.mem_range] at this
    omega
  obtain ⟨out, hrun, hlen, hget⟩ := run_tasks_ok v1 v2 n h1 h2 (tiled_tasks rt size TS)
    ((List.range n).map rt.stale) [Event.parallel_for_each] hin (by simp)
  refine ⟨out, ?_, ?_⟩
  · intro hdiv
    have hfull : n / TS * TS = n := Nat.div_mul_cancel (Nat.dvd_of_mod_eq_zero hdiv)
    have hin2 : ∀ t, t ∈ tiled_tasks rt size TS ↔ t < n := by
      intro t
      rw [hperm.mem_iff, List.mem_range, hfull]
    have h := run_tasks_cover v1 v2 ((List.range n).map rt.stale) n h1 h2 (by simp)
      (tiled_tasks rt size TS) [Event.parallel_for_each] hin2
    rw [hrun] at h
    injection h with h
    exact (Prod.mk.inj h).1
  · unfold vector_add_tiled_amp
    apply amp_adder_run rt tiled_text _ size v1 v2 v3 n hn h1 h2 h3 hst
    unfold try_tiled_amp
    cases hd : rt.dispatch_tiled size TS with
    | some what => rfl
    | none =>
      have hrun2 : run_tasks v1 v2
          ((rt.schedule_tiled (tiled_domain size TS)).map (tiled_index.global TS))
          ((List.range n).map rt.stale, [Event.parallel_for_each])
          = Except.ok (out, [Event.parallel_for_each] ++
              (tiled_tasks rt size TS).flatMap kernel_accesses) := hrun
      rw [hrun2]
      cases rt.synchronize <;> simp [dispatch_events]

/-! ## The serial adder, characterized -/

/-- The serial adder on vectors of one length that an `int` can count: no
fault, the output is the elementwise sum whatever it held before. -/
theorem vector_add_run {α : Type} [Add α] (clock : Nat → Int) (size : Int)
    (v1 v2 v3 : List α) (n : Nat) (hmax : n ≤ INT_MAX) (h1 : v1.length = n)
    (h2 : v2.length = n) (h3 : v3.length = n) :
    vector_add clock size v1 v2 v3
      = Except.ok ⟨serial_sum v1 v2, serial_events clock n, none⟩ := by
  obtain ⟨out, hrun, hlen, hget⟩ := vector_add_loop_ok v1 v2 n 0 v3 [Event.now]
    (by omega) (by omega) (by omega) (by omega)
  have hout : out = serial_sum v1 v2 := by
    apply List.ext_getElem?
    intro j
    rw [hget j]
    simp
  unfold vector_add
  rw [hrun, hout]
  rfl

/-! ## C1 : postcondition of the serial adder -/

/-- On vectors of one length that an `int` cannot count, `vector_add` ends in
undefined behaviour: its loop counter is incremented past `INT_MAX`. -/
theorem vector_add_overflow {α : Type} [Add α] (clock : Nat → Int) (size : Int)
    (v1 v2 v3 : List α) (h1 : v1.length = v3.length) (h2 : v2.length = v3.length)
    (hbig : INT_MAX < v3.length) :
    vector_add clock size v1 v2 v3 = Except.error Fault.signed_overflow := by
  unfold vector_add
  rw [vector_add_loop_overflow v1 v2 INT_MAX 0 v3 [Event.now] rfl (Nat.zero_le _) h1 h2 hbig]

theorem length_replicate_big (a : Int) :
    (List.replicate 2147483649 a).length = 2147483649 :=
  List.length_replicate _ _

theorem INT_MAX_lt_big : INT_MAX < 2147483649 := by
  unfold INT_MAX; omega

/-- C1, as stated, fails: on vectors of 2^31 + 1 elements the `int` loop
counter of `vector_add` is incremented past `INT_MAX`, which is undefined
behaviour, so the call does not establish the postcondition. -/
theorem vector_add_counter_overflows :
    vector_add (fun _ => 0) 0 (List.replicate 2147483649 (1 : Int))
        (List.replicate 2147483649 (2 : Int)) (List.replicate 2147483649 (0 : Int))
      = Except.error Fault.signed_overflow :=
  vector_add_overflow _ _ _ _ _
    ((length_replicate_big 1).trans (length_replicate_big 0).symm)
    ((length_replicate_big 2).trans (length_replicate_big 0).symm)
    (lt_of_lt_of_eq INT_MAX_lt_big (length_replicate_big 0).symm)

/-- C1, amended: for every `N ≤ INT_MAX`, all inputs `v1`, `v2` and every output
`v3` of `N` elements and every value of `size`, `vector_add` ends without an
out-of-bounds access or overflow, raises nothing and leaves
`v3[i] = v1[i] + v2[i]` for every `i < N` (the code adds `v2[i] + v1[i]`; the
addition is commutative). -/
theorem vector_add_postcondition {α : Type} [Add α] (hc : ∀ a b : α, a + b = b + a)
    (clock : Nat → Int) (size : Int) (N : Nat) (hmax : N ≤ INT_MAX) (v1 v2 v3 : List α)
    (h1 : v1.length = N) (h2 : v2.length = N) (h3 : v3.length = N) :
    ∃ r, vector_add clock size v1 v2 v3 = Except.ok r ∧ r.escaped = none ∧
      r.v3.length = N ∧ r.v3 = List.zipWith (fun a b => a + b) v1 v2 ∧
      ∀ (i : Nat) (hi : i < N),
        r.v3[i]? = some (v1.get ⟨i, h1 ▸ hi⟩ + v2.get ⟨i, h2 ▸ hi⟩) := by
  refine ⟨_, vector_add_run clock size v1 v2 v3 N hmax h1 h2 h3, rfl, ?_, ?_, ?_⟩
  · simp [serial_sum, h1, h2]
  · exact serial_sum_eq_parallel_sum hc v1 v2
  · intro i hi
    show (serial_sum v1 v2)[i]? = _
    rw [serial_sum_eq_parallel_sum hc, getElem?_parallel_sum v1 v2 i (h1 ▸ hi) (h2 ▸ hi)]
    rfl

/-- The scenario of C1: 1, 2, 3 plus 10, 20, 30 is 11, 22, 33, with a `size`
argument and prior output contents that do not matter. -/
theorem vector_add_postcondition_witness :
    ∃ r, vector_add (fun n => (n : Int)) (-7) [1, 2, 3] [10, 20, 30] [5, 5, (5 : Int)]
        = Except.ok r ∧ r.v3 = [11, 22, 33] := by
  obtain ⟨r, hr, _, _, hv, _⟩ := vector_add_postcondition Int.add_comm (fun n => (n : Int))
    (-7) 3 (by decide) [1, 2, 3] [10, 20, 30] [5, 5, 5] rfl rfl rfl
  exact ⟨r, hr, by rw [hv]; rfl⟩

/-! ## C2 : the flat parallel adder agrees with the serial adder -/

/-- C2: for every `N` an `int` holds and all `v1`, `v2`, `v3` of `N` elements,
when the runtime raises nothing during `vector_add_amp(N, v1, v2, v3)`, that
call and `vector_add(N, v1, v2, v3)` leave the same output, element for
element, in whatever order the runtime runs the `N` tasks. -/
theorem vector_add_amp_agrees_with_vector_add {α : Type} [Add α]
    (hc : ∀ a b : α, a + b = b + a) (rt : Runtime α) (clock : Nat → Int) (N : Nat)
    (hmax : N ≤ INT_MAX) (v1 v2 v3 : List α) (h1 : v1.length = N) (h2 : v2.length = N)
    (h3 : v3.length = N) (hst : rt.stages (N : Int) N N N) (hd : rt.dispatches (N : Int))
    (hs : (rt.schedule (flat_domain (N : Int))).Perm (flat_domain (N : Int))) :
    ∃ ra rs : Run α, vector_add_amp rt (N : Int) v1 v2 v3 = Except.ok ra ∧
      vector_add clock (N : Int) v1 v2 v3 = Except.ok rs ∧
      ra.escaped = none ∧ rs.escaped = none ∧ ra.v3 = rs.v3 ∧
      ∀ i : Nat, ra.v3[i]? = rs.v3[i]? := by
  have ha := vector_add_amp_run rt (N : Int) v1 v2 v3 N (by simp) h1 h2 h3 hst hs
  have hv := vector_add_run clock (N : Int) v1 v2 v3 N hmax h1 h2 h3
  have hres : (adder_result rt amp_text (rt.dispatch (N : Int))
      (rt.schedule (flat_domain (N : Int))) v3 (parallel_sum v1 v2)).v3 = parallel_sum v1 v2 := by
    simp [adder_result, hd.1, hd.2]
  have hesc : (adder_result rt amp_text (rt.dispatch (N : Int))
      (rt.schedule (flat_domain (N : Int))) v3 (parallel_sum v1 v2)).escaped = none := by
    simp [adder_result, hd.1, hd.2]
  have heq : parallel_sum v1 v2 = serial_sum v1 v2 := (serial_sum_eq_parallel_sum hc v1 v2).symm
  refine ⟨_, _, ha, hv, hesc, rfl, ?_, ?_⟩
  · rw [hres, heq]
  · intro i
    rw [hres, heq]

theorem quiet_schedule (d : List Nat) : (quiet.schedule d).Perm d :=
  List.Perm.refl d

theorem quiet_schedule_tiled (d : List tiled_index) : (quiet.schedule_tiled d).Perm d :=
  List.Perm.refl d

theorem strict_schedule_tiled (d : List tiled_index) :
    (strict.schedule_tiled d).Perm d :=
  List.Perm.refl d

theorem backwards_schedule (d : List Nat) : (backwards.schedule d).Perm d :=
  List.reverse_perm d

theorem backwards_schedule_tiled (d : List tiled_index) :
    (backwards.schedule_tiled d).Perm d :=
  List.reverse_perm d

/-- The scenario of C2, the three tasks run last to first: both adders leave
11, 22, 33. -/
theorem vector_add_amp_agrees_with_vector_add_witness :
    ∃ ra rs, vector_add_amp backwards 3 [1, 2, 3] [10, 20, 30] [0, 0, 0] = Except.ok ra ∧
      vector_add (fun n => (n : Int)) 3 [1, 2, 3] [10, 20, 30] [0, 0, 0] = Except.ok rs ∧
      ra.v3 = rs.v3 ∧ rs.v3 = [11, 22, 33] := by
  obtain ⟨ra, rs, ha, hv, _, _, he, _⟩ :=
    vector_add_amp_agrees_with_vector_add Int.add_comm backwards (fun n => (n : Int)) 3
      (by decide) [1, 2, 3] [10, 20, 30] [0, 0, 0] rfl rfl rfl (by decide) (by decide)
      (List.reverse_perm _)
  refine ⟨ra, rs, ha, hv, he, ?_⟩
  have hv2 := vector_add_run (fun n => (n : Int)) ((3 : Nat) : Int) [1, 2, 3] [10, 20, 30] [0, 0, (0 : Int)] 3
    (by decide) rfl rfl rfl
  rw [hv2] at hv
  injection hv with hv
  rw [← hv]
  rfl

/-! ## C3 : the tiled adder against the flat adder -/

/-- C3, as stated, fails on its own scenario `N = 3`: three elements hold no
whole tile of 1024, so on a runtime that raises nothing the tiled adder runs no
task and leaves 0, 0, 0 where the flat adder leaves 11, 22, 33; on a runtime
that rejects the extent the tiled adder shows the error dialog and leaves the
output as it was. -/
theorem vector_add_tiled_amp_three_elements :
    (vector_add_tiled_amp quiet 3 [1, 2, 3] [10, 20, 30] [0, 0, 0]).toOption.map Run.v3
        = some [0, 0, 0] ∧
      (vector_add_amp quiet 3 [1, 2, 3] [10, 20, 30] [0, 0, 0]).toOption.map Run.v3
        = some [11, 22, 33] ∧
      (vector_add_tiled_amp strict 3 [1, 2, 3] [10, 20, 30] [0, 0, 0]).toOption.map
          (fun r => (r.v3, r.trace.contains
            (Event.message_box "extent not divisible by the tile size")))
        = some ([0, 0, 0], true) ∧
      (vector_add_amp strict 3 [1, 2, 3] [10, 20, 30] [0, 0, 0]).toOption.map Run.v3
        = some [11, 22, 33] := by
  refine ⟨rfl, rfl, ?_, rfl⟩
  decide

/-- C3, amended: for every `N` that is a multiple of the tile size 1024 and all
`v1`, `v2`, `v3` of `N` elements, when the runtime raises nothing in either
call, `vector_add_tiled_amp(N, ...)` and `vector_add_amp(N, ...)` leave the same
output, with `v3[i] = v1[i] + v2[i]` for every `i < N`. -/
theorem vector_add_tiled_amp_agrees_with_vector_add_amp {α : Type} [Add α]
    (rt rt2 : Runtime α) (N : Nat) (hdiv : N % TS = 0) (v1 v2 v3 : List α)
    (h1 : v1.length = N) (h2 : v2.length = N) (h3 : v3.length = N)
    (hst : rt.stages (N : Int) N N N) (hd : rt.dispatches_tiled (N : Int) TS)
    (hs : (rt.schedule_tiled (tiled_domain (N : Int) TS)).Perm (tiled_domain (N : Int) TS))
    (hst2 : rt2.stages (N : Int) N N N) (hd2 : rt2.dispatches (N : Int))
    (hs2 : (rt2.schedule (flat_domain (N : Int))).Perm (flat_domain (N : Int))) :
    ∃ rtl rfa : Run α, vector_add_tiled_amp rt (N : Int) v1 v2 v3 = Except.ok rtl ∧
      vector_add_amp rt2 (N : Int) v1 v2 v3 = Except.ok rfa ∧
      rtl.escaped = none ∧ rfa.escaped = none ∧ rtl.v3 = rfa.v3 ∧
      ∀ (i : Nat) (hi : i < N),
        rtl.v3[i]? = some (v1.get ⟨i, h1 ▸ hi⟩ + v2.get ⟨i, h2 ▸ hi⟩) := by
  obtain ⟨out, hout, ht⟩ :=
    vector_add_tiled_amp_run rt (N : Int) v1 v2 v3 N (by simp) h1 h2 h3 hst hs
  have hf := vector_add_amp_run rt2 (N : Int) v1 v2 v3 N (by simp) h1 h2 h3 hst2 hs2
  have e1 : (adder_result rt tiled_text (rt.dispatch_tiled (N : Int) TS)
      (tiled_tasks rt (N : Int) TS) v3 out).v3 = parallel_sum v1 v2 := by
    simp [adder_result, hd.1, hd.2, hout hdiv]
  have e2 : (adder_result rt2 amp_text (rt2.dispatch (N : Int))
      (rt2.schedule (flat_domain (N : Int))) v3 (parallel_sum v1 v2)).v3
        = parallel_sum v1 v2 := by
    simp [adder_result, hd2.1, hd2.2]
  refine ⟨_, _, ht, hf, ?_, ?_, ?_, ?_⟩
  · simp [adder_result, hd.1, hd.2]
  · simp [adder_result, hd2.1, hd2.2]
  · rw [e1, e2]
  · intro i hi
    rw [e1, getElem?_parallel_sum v1 v2 i (h1 ▸ hi) (h2 ▸ hi)]
    rfl

/-- One whole tile: on 1024 elements 1 and 1024 elements 10 the tiled and the
flat adder both leave 1024 elements 11. -/
theorem vector_add_tiled_amp_agrees_with_vector_add_amp_witness :
    ∃ rtl rfa : Run Int,
      vector_add_tiled_amp quiet ((1024 : Nat) : Int) (List.replicate 1024 1)
        (List.replicate 1024 10) (List.replicate 1024 0) = Except.ok rtl ∧
      vector_add_amp backwards ((1024 : Nat) : Int) (List.replicate 1024 1)
        (List.replicate 1024 10) (List.replicate 1024 0) = Except.ok rfa ∧
      rtl.v3 = rfa.v3 ∧ rtl.v3[1023]? = some 11 := by
  obtain ⟨rtl, rfa, h1, h2, _, _, h3, h4⟩ :=
    vector_add_tiled_amp_agrees_with_vector_add_amp quiet backwards 1024 (by decide)
      (List.replicate 1024 (1 : Int)) (List.replicate 1024 10) (List.replicate 1024 0)
      (List.length_replicate _ _) (List.length_replicate _ _) (List.length_replicate _ _)
      (by decide) (by decide) (quiet_schedule_tiled _) (by decide) (by decide)
      (backwards_schedule _)
  refine ⟨rtl, rfa, h1, h2, h3, ?_⟩
  rw [h4 1023 (by decide)]
  simp only [List.get_eq_getElem, List.getElem_replicate]
  rfl

/-! ## C4 : which failures stay inside a parallel adder -/

theorem no_message_box_staged (w : String) : Event.message_box w ∉ staged_events := by
  simp [staged_events]

theorem no_message_box_dispatch (w : String) (tasks : List Nat) :
    Event.message_box w ∉ dispatch_events tasks := by
  intro h
  simp only [dispatch_events, List.mem_append, List.mem_singleton] at h
  rcases h with (h | h) | h
  · cases h
  · have := inner_kernel_accesses tasks _ h
    simp [inner_event] at this
  · cases h

/-- After staged views a call of a parallel adder whose `try` block raised
`what` ends with the error dialog for `what`, the end timestamp and the timing
line; there is no other error dialog and nothing leaves the call. -/
theorem adder_result_caught {α : Type} (rt : Runtime α) (text : String)
    (raise : Option String) (tasks : List Nat) (v3 out : List α) (what : String)
    (hf : raise = some what ∨ (raise = none ∧ rt.synchronize = some what)) :
    (adder_result rt text raise tasks v3 out).escaped = none ∧
      ∃ pre, (adder_result rt text raise tasks v3 out).trace
          = pre ++ [Event.message_box what, Event.now,
              Event.timing text (rt.clock 1 - rt.clock 0)] ∧
        ∀ w, Event.message_box w ∉ pre := by
  rcases hf with hf | ⟨hf, hsy⟩
  · subst hf
    refine ⟨rfl, staged_events ++ [Event.parallel_for_each], rfl, ?_⟩
    intro w h
    rw [List.mem_append] at h
    rcases h with h | h
    · exact no_message_box_staged w h
    · simp at h
  · subst hf
    refine ⟨by simp [adder_result, hsy], staged_events ++ dispatch_events tasks,
      by simp [adder_result, hsy, closing_events], ?_⟩
    intro w h
    rw [List.mem_append] at h
    rcases h with h | h
    · exact no_message_box_staged w h
    · exact no_message_box_dispatch w tasks h

/-- C4, as stated, fails: a failure raised while the output view is constructed
is raised before the `try` block of either adder; it leaves the call, no error
dialog is shown, no timestamp is taken and no timing line is printed. -/
theorem view_failure_escapes :
    (vector_add_amp failing_view 3 [1, 2, 3] [10, 20, 30] [0, 0, 0]).toOption.map
        (fun r => (r.escaped, r.trace))
      = some (some "out of memory",
          [Event.view_ctor 1, Event.view_ctor 2, Event.view_ctor 3]) ∧
    (vector_add_tiled_amp failing_view 3 [1, 2, 3] [10, 20, 30] [0, 0, 0]).toOption.map
        (fun r => (r.escaped, r.trace))
      = some (some "out of memory",
          [Event.view_ctor 1, Event.view_ctor 2, Event.view_ctor 3]) := by
  decide

/-- C4, amended: every failure raised inside the `try` block of
`vector_add_amp` or `vector_add_tiled_amp`, that is by the dispatch or by the
synchronization, is caught inside the call, shown in exactly one error dialog
and not raised again; the call then takes the end timestamp, prints its timing
line and returns normally. -/
theorem parallel_adders_catch_try_failures {α : Type} [Add α] (rt rt2 : Runtime α)
    (size : Int) (N : Nat) (hn : size.toNat = N) (v1 v2 v3 : List α)
    (h1 : v1.length = N) (h2 : v2.length = N) (h3 : v3.length = N)
    (hst : rt.stages size N N N)
    (hs : (rt.schedule (flat_domain size)).Perm (flat_domain size))
    (hst2 : rt2.stages size N N N)
    (hs2 : (rt2.schedule_tiled (tiled_domain size TS)).Perm (tiled_domain size TS))
    (what what2 : String)
    (hf : rt.dispatch size = some what ∨
      (rt.dispatch size = none ∧ rt.synchronize = some what))
    (hf2 : rt2.dispatch_tiled size TS = some what2 ∨
      (rt2.dispatch_tiled size TS = none ∧ rt2.synchronize = some what2)) :
    (∃ (r : Run α) (pre : List Event),
        vector_add_amp rt size v1 v2 v3 = Except.ok r ∧ r.escaped = none ∧
        r.trace = pre ++ [Event.message_box what, Event.now,
          Event.timing amp_text (rt.clock 1 - rt.clock 0)] ∧
        ∀ w, Event.message_box w ∉ pre) ∧
    (∃ (r : Run α) (pre : List Event),
        vector_add_tiled_amp rt2 size v1 v2 v3 = Except.ok r ∧ r.escaped = none ∧
        r.trace = pre ++ [Event.message_box what2, Event.now,
          Event.timing tiled_text (rt2.clock 1 - rt2.clock 0)] ∧
        ∀ w, Event.message_box w ∉ pre) := by
  constructor
  · have hrun := vector_add_amp_run rt size v1 v2 v3 N hn h1 h2 h3 hst hs
    obtain ⟨hesc, pre, htr, hno⟩ := adder_result_caught rt amp_text (rt.dispatch size)
      (rt.schedule (flat_domain size)) v3 (parallel_sum v1 v2) what hf
    exact ⟨_, pre, hrun, hesc, htr, hno⟩
  · obtain ⟨out, _, hrun⟩ :=
      vector_add_tiled_amp_run rt2 size v1 v2 v3 N hn h1 h2 h3 hst2 hs2
    obtain ⟨hesc, pre, htr, hno⟩ := adder_result_caught rt2 tiled_text
      (rt2.dispatch_tiled size TS) (tiled_tasks rt2 size TS) v3 out what2 hf2
    exact ⟨_, pre, hrun, hesc, htr, hno⟩

/-- A dispatch that raises on three elements: both adders show the dialog once
and return. -/
theorem parallel_adders_catch_try_failures_witness :
    (∃ (r : Run Int) (pre : List Event),
        vector_add_amp failing_dispatch 3 [1, 2, 3] [10, 20, 30] [0, 0, 0] = Except.ok r ∧
        r.escaped = none ∧
        r.trace = pre ++ [Event.message_box "double precision is not supported", Event.now,
          Event.timing amp_text (failing_dispatch.clock 1 - failing_dispatch.clock 0)] ∧
        ∀ w, Event.message_box w ∉ pre) ∧
    (∃ (r : Run Int) (pre : List Event),
        vector_add_tiled_amp failing_dispatch 3 [1, 2, 3] [10, 20, 30] [0, 0, 0]
          = Except.ok r ∧ r.escaped = none ∧
        r.trace = pre ++ [Event.message_box "double precision is not supported", Event.now,
          Event.timing tiled_text (failing_dispatch.clock 1 - failing_dispatch.clock 0)] ∧
        ∀ w, Event.message_box w ∉ pre) :=
  parallel_adders_catch_try_failures failing_dispatch failing_dispatch 3 3 rfl
    [1, 2, 3] [10, 20, 30] [0, 0, 0] rfl rfl rfl (by decide) (List.Perm.refl _) (by decide)
    (List.Perm.refl _) "double precision is not supported"
    "double precision is not supported" (Or.inl rfl) (Or.inl rfl)

/-! ## C5 : empty vectors -/

/-- C5, as stated, fails: neither parallel adder looks at `size` before it
constructs its views, so on a runtime that rejects an empty extent, as C++ AMP
does, the call on empty vectors raises, and the failure leaves the call. -/
theorem empty_extent_is_rejected :
    (vector_add_amp strict 0 [] [] []).toOption.map (fun r => (r.escaped, r.trace))
      = some (some "invalid extent", [Event.view_ctor 1]) ∧
    (vector_add_tiled_amp strict 0 [] [] []).toOption.map (fun r => (r.escaped, r.trace))
      = some (some "invalid extent", [Event.view_ctor 1]) := by
  decide

/-- C5, amended: on empty vectors with `size = 0` the serial adder returns
normally, raises nothing, reads and writes no element and leaves the output
empty; each parallel adder does the same whenever the runtime raises nothing
for the empty extent. -/
theorem adders_on_empty_vectors {α : Type} [Add α] (clock : Nat → Int)
    (rt rt2 : Runtime α) (hst : rt.stages 0 0 0 0) (hd : rt.dispatches 0)
    (hs : (rt.schedule (flat_domain 0)).Perm (flat_domain 0))
    (hst2 : rt2.stages 0 0 0 0) (hd2 : rt2.dispatches_tiled 0 TS)
    (hs2 : (rt2.schedule_tiled (tiled_domain 0 TS)).Perm (tiled_domain 0 TS)) :
    vector_add clock 0 ([] : List α) [] []
      = Except.ok ⟨[], [Event.now, Event.now,
          Event.timing serial_text (clock 1 - clock 0)], none⟩ ∧
    vector_add_amp rt 0 ([] : List α) [] []
      = Except.ok ⟨[], [Event.view_ctor 1, Event.view_ctor 2, Event.view_ctor 3,
          Event.discard_data, Event.now, Event.parallel_for_each, Event.synchronize,
          Event.now, Event.timing amp_text (rt.clock 1 - rt.clock 0)], none⟩ ∧
    vector_add_tiled_amp rt2 0 ([] : List α) [] []
      = Except.ok ⟨[], [Event.view_ctor 1, Event.view_ctor 2, Event.view_ctor 3,
          Event.discard_data, Event.now, Event.parallel_for_each, Event.synchronize,
          Event.now, Event.timing tiled_text (rt2.clock 1 - rt2.clock 0)], none⟩ := by
  refine ⟨?_, ?_, ?_⟩
  · rw [vector_add_run clock 0 [] [] [] 0 (Nat.zero_le _) rfl rfl rfl]
    rfl
  · have hnil : rt.schedule (flat_domain 0) = [] := List.Perm.eq_nil hs
    rw [vector_add_amp_run rt 0 [] [] [] 0 rfl rfl rfl rfl hst hs, hnil]
    simp [adder_result, hd.1, hd.2, parallel_sum, staged_events, dispatch_events,
      closing_events]
  · have hnil : tiled_tasks rt2 0 TS = [] := by
      unfold tiled_tasks
      rw [List.Perm.eq_nil hs2]
      rfl
    obtain ⟨out, hout, hrun⟩ :=
      vector_add_tiled_amp_run rt2 0 [] [] [] 0 rfl rfl rfl rfl hst2 hs2
    rw [hrun, hnil, hout rfl]
    simp [adder_result, hd2.1, hd2.2, parallel_sum, staged_events, dispatch_events,
      closing_events]

/-- Empty vectors on a runtime that raises nothing: the three adders return
normally with an empty output. -/
theorem adders_on_empty_vectors_witness :
    (vector_add (fun n => (n : Int)) 0 ([] : List Int) [] []).toOption.map Run.v3 = some [] ∧
    (vector_add_amp quiet 0 [] [] []).toOption.map Run.v3 = some [] ∧
    (vector_add_tiled_amp backwards 0 [] [] []).toOption.map Run.v3 = some [] := by
  obtain ⟨h1, h2, h3⟩ := adders_on_empty_vectors (fun n => (n : Int)) quiet backwards
    (by decide) (by decide) (List.Perm.refl _) (by decide) (by decide)
    (backwards_schedule_tiled _)
  rw [h1, h2, h3]
  exact ⟨rfl, rfl, rfl⟩

/-! ## The parallel adders when nothing is raised -/

/-- The flat adder when the runtime raises nothing: the output is the
elementwise sum and the events are the staging, the dispatch and the timing. -/
theorem vector_add_amp_output {α : Type} [Add α] (rt : Runtime α) (N : Nat)
    (v1 v2 v3 : List α) (h1 : v1.length = N) (h2 : v2.length = N) (h3 : v3.length = N)
    (hst : rt.stages (N : Int) N N N) (hd : rt.dispatches (N : Int))
    (hs : (rt.schedule (flat_domain (N : Int))).Perm (flat_domain (N : Int))) :
    vector_add_amp rt (N : Int) v1 v2 v3
      = Except.ok ⟨parallel_sum v1 v2, staged_events ++
          dispatch_events (rt.schedule (flat_domain (N : Int))) ++
          closing_events rt amp_text, none⟩ := by
  rw [vector_add_amp_run rt (N : Int) v1 v2 v3 N (by simp) h1 h2 h3 hst hs]
  simp [adder_result, hd.1, hd.2]

/-- The tiled adder when the runtime raises nothing and the tile size divides
the number of elements: the output is the elementwise sum and the events are
the staging, the dispatch and the timing. -/
theorem vector_add_tiled_amp_output {α : Type} [Add α] (rt : Runtime α) (N : Nat)
    (hdiv : N % TS = 0) (v1 v2 v3 : List α) (h1 : v1.length = N) (h2 : v2.length = N)
    (h3 : v3.length = N) (hst : rt.stages (N : Int) N N N)
    (hd : rt.dispatches_tiled (N : Int) TS)
    (hs : (rt.schedule_tiled (tiled_domain (N : Int) TS)).Perm (tiled_domain (N : Int) TS)) :
    vector_add_tiled_amp rt (N : Int) v1 v2 v3
      = Except.ok ⟨parallel_sum v1 v2, staged_events ++
          dispatch_events (tiled_tasks rt (N : Int) TS) ++
          closing_events rt tiled_text, none⟩ := by
  obtain ⟨out, hout, hrun⟩ :=
    vector_add_tiled_amp_run rt (N : Int) v1 v2 v3 N (by simp) h1 h2 h3 hst hs
  rw [hrun, hout hdiv]
  simp [adder_result, hd.1, hd.2]

/-! ## C6 : determinism and idempotence -/

theorem inputs_untouched_iff (tr : List Event) :
    inputs_untouched tr = true ↔ ∀ e ∈ tr, writes_input e = false := by
  simp [inputs_untouched, List.all_eq_true]

theorem inputs_untouched_append (a b : List Event) (ha : inputs_untouched a = true)
    (hb : inputs_untouched b = true) : inputs_untouched (a ++ b) = true := by
  simp only [inputs_untouched, List.all_append, Bool.and_eq_true] at *
  exact ⟨ha, hb⟩

theorem inputs_untouched_serial_accesses (l : List Nat) :
    inputs_untouched (l.flatMap serial_accesses) = true := by
  rw [inputs_untouched_iff]
  intro e he
  rw [List.mem_flatMap] at he
  obtain ⟨t, _, ht⟩ := he
  simp only [serial_accesses, List.mem_cons, List.mem_singleton, List.not_mem_nil,
    or_false] at ht
  rcases ht with rfl | rfl | rfl <;> rfl

/-- The serial adder writes no element of `v1` or `v2`. -/
theorem inputs_untouched_serial (clock : Nat → Int) (n : Nat) :
    inputs_untouched (serial_events clock n) = true := by
  unfold serial_events
  exact inputs_untouched_append _ _
    (inputs_untouched_append _ _ rfl (inputs_untouched_serial_accesses _)) rfl

theorem inputs_untouched_dispatch (tasks : List Nat) :
    inputs_untouched (dispatch_events tasks) = true := by
  rw [inputs_untouched_iff]
  intro e he
  simp only [dispatch_events, List.mem_append, List.mem_singleton] at he
  rcases he with (h | h) | h
  · subst h; rfl
  · have hin := inner_kernel_accesses tasks e h
    cases e <;> first | rfl | simp [inner_event] at hin
  · subst h; rfl

/-- A parallel adder whose `try` block completes writes no element of `v1` or
`v2`. -/
theorem inputs_untouched_parallel {α : Type} (rt : Runtime α) (text : String)
    (tasks : List Nat) :
    inputs_untouched (staged_events ++ dispatch_events tasks ++ closing_events rt text)
      = true :=
  inputs_untouched_append _ _
    (inputs_untouched_append _ _ rfl (inputs_untouched_dispatch tasks)) rfl

/-- C6, as stated, fails twice.  For the tiled adder on three elements no whole
tile exists: when the runtime raises nothing the output is the discarded view,
0, 0, 0 in one run and 9, 9, 9 in the other, and a second run changes the
output of the first; when the runtime rejects the extent the output keeps its
prior contents, which differ.  For the serial adder on 2^31 + 1 elements the
`int` counter overflows and no output is produced (the defect of C1). -/
theorem tiled_output_on_three_elements_varies :
    (vector_add_tiled_amp quiet 3 [1, 2, 3] [10, 20, 30] [0, 0, 0]).toOption.map
        (fun r => (r.v3, r.escaped, r.trace.contains (Event.parallel_for_each),
          r.trace.contains (Event.synchronize)))
      = some ([0, 0, 0], none, true, true) ∧
    (vector_add_tiled_amp backwards 3 [1, 2, 3] [10, 20, 30] [5, 5, 5]).toOption.map
        (fun r => (r.v3, r.escaped, r.trace.contains (Event.parallel_for_each),
          r.trace.contains (Event.synchronize)))
      = some ([9, 9, 9], none, true, true) ∧
    (vector_add_tiled_amp backwards 3 [1, 2, 3] [10, 20, 30] [0, 0, 0]).toOption.map Run.v3
      = some [9, 9, 9] ∧
    (vector_add_tiled_amp strict 3 [1, 2, 3] [10, 20, 30] [0, 0, 0]).toOption.map Run.v3
      = some [0, 0, 0] ∧
    (vector_add_tiled_amp strict 3 [1, 2, 3] [10, 20, 30] [5, 5, 5]).toOption.map Run.v3
      = some [5, 5, 5] ∧
    vector_add (fun _ => 0) 0 (List.replicate 2147483649 (1 : Int))
        (List.replicate 2147483649 (2 : Int)) (List.replicate 2147483649 (7 : Int))
      = Except.error Fault.signed_overflow := by
  refine ⟨by decide, by decide, rfl, rfl, rfl, ?_⟩
  exact vector_add_overflow _ _ _ _ _
    ((length_replicate_big 1).trans (length_replicate_big 7).symm)
    ((length_replicate_big 2).trans (length_replicate_big 7).symm)
    (lt_of_lt_of_eq INT_MAX_lt_big (length_replicate_big 7).symm)

/-- C6, amended: for all inputs `v1`, `v2` and any two outputs `v3`, `v3'` of `N`
elements with arbitrary prior contents, two runs of an adder leave equal
outputs, a second run on the output of the first leaves it unchanged, and no
run writes an element of `v1` or `v2`: for `vector_add` when `N ≤ INT_MAX`
(with any `size` arguments and clocks), for `vector_add_amp` for every `N` when
the runtime raises nothing (under any schedules and discarded contents), and
for `vector_add_tiled_amp` when moreover `N` is a multiple of the tile size
1024. -/
theorem adders_are_deterministic {α : Type} [Add α] (N : Nat)
    (v1 v2 v3 v3' : List α) (h1 : v1.length = N) (h2 : v2.length = N)
    (h3 : v3.length = N) (h3' : v3'.length = N) :
    (N ≤ INT_MAX → ∀ (clock clock' : Nat → Int) (size size' : Int),
      ∃ r r' r2 : Run α, vector_add clock size v1 v2 v3 = Except.ok r ∧
        vector_add clock' size' v1 v2 v3' = Except.ok r' ∧ r.v3 = r'.v3 ∧
        vector_add clock' size' v1 v2 r.v3 = Except.ok r2 ∧ r2.v3 = r.v3 ∧
        inputs_untouched r.trace = true ∧ inputs_untouched r'.trace = true ∧
        inputs_untouched r2.trace = true) ∧
    (∀ rt rt' : Runtime α,
      rt.stages (N : Int) N N N → rt.dispatches (N : Int) →
      (rt.schedule (flat_domain (N : Int))).Perm (flat_domain (N : Int)) →
      rt'.stages (N : Int) N N N → rt'.dispatches (N : Int) →
      (rt'.schedule (flat_domain (N : Int))).Perm (flat_domain (N : Int)) →
      ∃ r r' r2 : Run α, vector_add_amp rt (N : Int) v1 v2 v3 = Except.ok r ∧
        vector_add_amp rt' (N : Int) v1 v2 v3' = Except.ok r' ∧ r.v3 = r'.v3 ∧
        vector_add_amp rt' (N : Int) v1 v2 r.v3 = Except.ok r2 ∧ r2.v3 = r.v3 ∧
        inputs_untouched r.trace = true ∧ inputs_untouched r'.trace = true ∧
        inputs_untouched r2.trace = true) ∧
    (N % TS = 0 → ∀ rt rt' : Runtime α,
      rt.stages (N : Int) N N N → rt.dispatches_tiled (N : Int) TS →
      (rt.schedule_tiled (tiled_domain (N : Int) TS)).Perm (tiled_domain (N : Int) TS) →
      rt'.stages (N : Int) N N N → rt'.dispatches_tiled (N : Int) TS →
      (rt'.schedule_tiled (tiled_domain (N : Int) TS)).Perm (tiled_domain (N : Int) TS) →
      ∃ r r' r2 : Run α, vector_add_tiled_amp rt (N : Int) v1 v2 v3 = Except.ok r ∧
        vector_add_tiled_amp rt' (N : Int) v1 v2 v3' = Except.ok r' ∧ r.v3 = r'.v3 ∧
        vector_add_tiled_amp rt' (N : Int) v1 v2 r.v3 = Except.ok r2 ∧ r2.v3 = r.v3 ∧
        inputs_untouched r.trace = true ∧ inputs_untouched r'.trace = true ∧
        inputs_untouched r2.trace = true) := by
  have hsl : (serial_sum v1 v2).length = N := by simp [serial_sum, h1, h2]
  have hpl : (parallel_sum v1 v2).length = N := length_parallel_sum v1 v2 N h1 h2
  refine ⟨?_, ?_, ?_⟩
  · intro hmax clock clock' size size'
    exact ⟨_, _, _, vector_add_run clock size v1 v2 v3 N hmax h1 h2 h3,
      vector_add_run clock' size' v1 v2 v3' N hmax h1 h2 h3', rfl,
      vector_add_run clock' size' v1 v2 _ N hmax h1 h2 hsl, rfl,
      inputs_untouched_serial clock N, inputs_untouched_serial clock' N,
      inputs_untouched_serial clock' N⟩
  · intro rt rt' hst hd hs hst' hd' hs'
    exact ⟨_, _, _, vector_add_amp_output rt N v1 v2 v3 h1 h2 h3 hst hd hs,
      vector_add_amp_output rt' N v1 v2 v3' h1 h2 h3' hst' hd' hs', rfl,
      vector_add_amp_output rt' N v1 v2 _ h1 h2 hpl hst' hd' hs', rfl,
      inputs_untouched_parallel rt amp_text _, inputs_untouched_parallel rt' amp_text _,
      inputs_untouched_parallel rt' amp_text _⟩
  · intro hdiv rt rt' hst hd hs hst' hd' hs'
    exact ⟨_, _, _, vector_add_tiled_amp_output rt N hdiv v1 v2 v3 h1 h2 h3 hst hd hs,
      vector_add_tiled_amp_output rt' N hdiv v1 v2 v3' h1 h2 h3' hst' hd' hs', rfl,
      vector_add_tiled_amp_output rt' N hdiv v1 v2 _ h1 h2 hpl hst' hd' hs', rfl,
      inputs_untouched_parallel rt tiled_text _, inputs_untouched_parallel rt' tiled_text _,
      inputs_untouched_parallel rt' tiled_text _⟩

/-- The scenario of three elements for the serial and the flat adder, one whole
tile of 1024 elements for the tiled adder: the output held 0 before one run and
7 before the other, the tasks ran first to last in one run and last to first
in the other, and the outputs are equal. -/
theorem adders_are_deterministic_witness :
    (∃ r r' r2 : Run Int,
        vector_add (fun n => (n : Int)) 3 [1, 2, 3] [10, 20, 30] [0, 0, 0] = Except.ok r ∧
        vector_add (fun n => 2 * (n : Int)) (-1) [1, 2, 3] [10, 20, 30] [7, 7, 7]
          = Except.ok r' ∧ r.v3 = r'.v3 ∧
        vector_add (fun n => 2 * (n : Int)) (-1) [1, 2, 3] [10, 20, 30] r.v3
          = Except.ok r2 ∧ r2.v3 = r.v3 ∧
        inputs_untouched r.trace = true ∧ inputs_untouched r'.trace = true ∧
        inputs_untouched r2.trace = true) ∧
    (∃ r r' r2 : Run Int,
        vector_add_amp quiet ((3 : Nat) : Int) [1, 2, 3] [10, 20, 30] [0, 0, 0]
          = Except.ok r ∧
        vector_add_amp backwards ((3 : Nat) : Int) [1, 2, 3] [10, 20, 30] [7, 7, 7]
          = Except.ok r' ∧ r.v3 = r'.v3 ∧
        vector_add_amp backwards ((3 : Nat) : Int) [1, 2, 3] [10, 20, 30] r.v3
          = Except.ok r2 ∧ r2.v3 = r.v3 ∧
        inputs_untouched r.trace = true ∧ inputs_untouched r'.trace = true ∧
        inputs_untouched r2.trace = true) ∧
    (∃ r r' r2 : Run Int, vector_add_tiled_amp strict ((1024 : Nat) : Int)
          (List.replicate 1024 1) (List.replicate 1024 2) (List.replicate 1024 0)
          = Except.ok r ∧
        vector_add_tiled_amp backwards ((1024 : Nat) : Int) (List.replicate 1024 1)
          (List.replicate 1024 2) (List.replicate 1024 7) = Except.ok r' ∧ r.v3 = r'.v3 ∧
        vector_add_tiled_amp backwards ((1024 : Nat) : Int) (List.replicate 1024 1)
          (List.replicate 1024 2) r.v3 = Except.ok r2 ∧ r2.v3 = r.v3 ∧
        inputs_untouched r.trace = true ∧ inputs_untouched r'.trace = true ∧
        inputs_untouched r2.trace = true) :=
  ⟨(adders_are_deterministic 3 [1, 2, 3] [10, 20, 30] [0, 0, 0] [7, 7, 7] rfl rfl rfl
      rfl).1 (by decide) (fun n => (n : Int)) (fun n => 2 * (n : Int)) 3 (-1),
    (adders_are_deterministic 3 [1, 2, 3] [10, 20, 30] [0, 0, 0] [7, 7, 7] rfl rfl rfl
      rfl).2.1 quiet backwards (by decide) (by decide) (quiet_schedule _) (by decide)
      (by decide) (backwards_schedule _),
    (adders_are_deterministic 1024 (List.replicate 1024 (1 : Int)) (List.replicate 1024 2)
      (List.replicate 1024 0) (List.replicate 1024 7) (List.length_replicate _ _)
      (List.length_replicate _ _) (List.length_replicate _ _)
      (List.length_replicate _ _)).2.2 (by decide) strict backwards (by decide) (by decide)
      (strict_schedule_tiled _) (by decide) (by decide) (backwards_schedule_tiled _)⟩

/-! ## C7 : the report of the accelerators -/

/-- The loop of `list_accelerators` over a list an `int` can count prints the
block of every accelerator from position `i` on, in list order. -/
theorem list_accelerators_loop_ok (accls : List Accelerator) (hmax : accls.length ≤ INT_MAX) :
    ∀ (k i : Nat) (tr : List Event), accls.length - i = k →
      list_accelerators_loop accls i tr
        = Except.ok (tr ++ (accls.drop i).map Event.descriptor) := by
  intro k
  induction k with
  | zero =>
    intro i tr hk
    have hi : ¬ i < accls.length := by omega
    rw [list_accelerators_loop]
    simp [hi, List.drop_of_length_le (by omega : accls.length ≤ i)]
  | succ k ih =>
    intro i tr hk
    have hi : i < accls.length := by omega
    have hstep : i + 1 ≤ INT_MAX := by omega
    rw [list_accelerators_loop]
    simp only [hi, if_true, List.getElem?_eq_getElem hi, hstep]
    rw [ih (i + 1) _ (by omega), List.drop_eq_getElem_cons hi, List.map_cons,
      List.append_assoc]
    rfl

/-- C7: `query_AMP_support` does not fail.  When the runtime returns no
accelerator it prints the single line "No accelerators found ..." and nothing
else (its call of `list_accelerators` is not reached); when it returns the
non-empty list `accls` it prints the line "Accelerators found ...", then one
descriptor block per accelerator in list order, then one default-accelerator
line. -/
theorem query_AMP_support_report (get_all : Nat → List Accelerator) (dflt : Accelerator) :
    (get_all 0 = [] → query_AMP_support get_all dflt = Except.ok [Event.no_accelerators]) ∧
    (∀ accls : List Accelerator, accls ≠ [] → get_all 0 = accls → get_all 1 = accls →
      accls.length ≤ INT_MAX →
      query_AMP_support get_all dflt
        = Except.ok ([Event.accelerators_found] ++ accls.map Event.descriptor ++
            [Event.default_acc dflt.description])) := by
  constructor
  · intro h0
    simp [query_AMP_support, h0]
  · intro accls hne h0 h1 hmax
    have hemp : (get_all 0).isEmpty = false := by
      rw [h0]
      cases accls with
      | nil => exact absurd rfl hne
      | cons a rest => rfl
    unfold query_AMP_support list_accelerators
    rw [hemp, h1, list_accelerators_loop_ok accls hmax accls.length 0 [] (by omega)]
    simp

/-- A host without accelerators prints one line; a host with two prints the
found line, their two blocks in order and the default line. -/
theorem query_AMP_support_report_witness :
    query_AMP_support (fun _ => []) warp = Except.ok [Event.no_accelerators] ∧
    query_AMP_support (fun _ => [gpu, warp]) gpu
      = Except.ok [Event.accelerators_found, Event.descriptor gpu, Event.descriptor warp,
          Event.default_acc "GPU"] :=
  ⟨(query_AMP_support_report (fun _ => []) warp).1 rfl,
    (query_AMP_support_report (fun _ => [gpu, warp]) gpu).2 [gpu, warp] (by decide) rfl rfl
      (by decide)⟩

/-! ## C8 : the tile index mapping -/

theorem count_write_staged (i : Nat) : staged_events.count (Event.write_v3 i) = 0 := by
  simp [staged_events]

theorem count_write_dispatch (i : Nat) (tasks : List Nat) :
    (dispatch_events tasks).count (Event.write_v3 i) = tasks.count i := by
  simp [dispatch_events, List.count_append, count_write_kernel]

theorem count_range (i N : Nat) : (List.range N).count i = if i < N then 1 else 0 := by
  split
  · exact List.count_eq_one_of_mem (List.nodup_range N) (List.mem_range.2 (by assumption))
  · exact List.count_eq_zero_of_not_mem (fun h => by simp at h; omega)

/-- C8: for every `N` that is a multiple of the tile size 1024, tile index and
offset map to `tile * 1024 + offset` one-to-one from the tiles `[0, N/1024)`
and offsets `[0, 1024)` onto `[0, N)`, with inverse `i ↦ (i / 1024, i % 1024)`;
hence a tiled dispatch that is not rejected writes every index below `N` once
and no other index. -/
theorem tile_mapping_is_a_bijection {α : Type} [Add α] (N : Nat) (hdiv : N % TS = 0) :
    (tiled_domain (N : Int) TS).map (tiled_index.global TS) = List.range N ∧
    (tiled_domain (N : Int) TS).Nodup ∧
    (∀ t : tiled_index, t ∈ tiled_domain (N : Int) TS ↔ t.tile < N / TS ∧ t.loc < TS) ∧
    (∀ t ∈ tiled_domain (N : Int) TS, tiled_index.global TS t < N ∧
      tiled_index.mk (tiled_index.global TS t / TS) (tiled_index.global TS t % TS) = t) ∧
    (∀ i < N, tiled_index.mk (i / TS) (i % TS) ∈ tiled_domain (N : Int) TS ∧
      tiled_index.global TS (tiled_index.mk (i / TS) (i % TS)) = i) ∧
    (∀ (rt : Runtime α) (v1 v2 v3 : List α), v1.length = N → v2.length = N →
      v3.length = N → rt.stages (N : Int) N N N → rt.dispatches_tiled (N : Int) TS →
      (rt.schedule_tiled (tiled_domain (N : Int) TS)).Perm (tiled_domain (N : Int) TS) →
      ∃ r : Run α, vector_add_tiled_amp rt (N : Int) v1 v2 v3 = Except.ok r ∧
        ∀ i : Nat, r.trace.count (Event.write_v3 i) = if i < N then 1 else 0) := by
  have hfull : N / TS * TS = N := Nat.div_mul_cancel (Nat.dvd_of_mod_eq_zero hdiv)
  have hTS : 0 < TS := by decide
  have hdom : tiled_domain (N : Int) TS = tiles (N / TS) TS := by
    rw [tiled_domain_eq, Int.toNat_natCast]
  refine ⟨?_, ?_, ?_, ?_, ?_, ?_⟩
  · rw [hdom, tiles_global, hfull]
  · rw [hdom]; exact tiles_nodup _ _
  · intro t; rw [hdom]; exact mem_tiles _ _ t
  · intro t ht
    rw [hdom, mem_tiles] at ht
    obtain ⟨h1, h2⟩ := ht
    have hlt : t.tile * TS + t.loc < N := by
      have : (t.tile + 1) * TS ≤ N / TS * TS := Nat.mul_le_mul_right TS h1
      rw [hfull, Nat.succ_mul] at this
      omega
    refine ⟨hlt, ?_⟩
    have hq : (t.tile * TS + t.loc) / TS = t.tile := by
      rw [Nat.mul_comm, Nat.mul_add_div hTS, Nat.div_eq_of_lt h2, Nat.add_zero]
    have hr : (t.tile * TS + t.loc) % TS = t.loc := by
      rw [Nat.mul_comm, Nat.mul_add_mod, Nat.mod_eq_of_lt h2]
    show tiled_index.mk ((t.tile * TS + t.loc) / TS) ((t.tile * TS + t.loc) % TS) = t
    rw [hq, hr]
  · intro i hi
    constructor
    · rw [hdom, mem_tiles]
      refine ⟨?_, Nat.mod_lt _ hTS⟩
      show i / TS < N / TS
      rw [Nat.div_lt_iff_lt_mul hTS, hfull]
      exact hi
    · show i / TS * TS + i % TS = i
      exact Nat.div_add_mod' i TS
  · intro rt v1 v2 v3 h1 h2 h3 hst hd hs
    refine ⟨_, vector_add_tiled_amp_output rt N hdiv v1 v2 v3 h1 h2 h3 hst hd hs, ?_⟩
    intro i
    have hperm := tiled_tasks_perm rt (N : Int) TS hs
    rw [Int.toNat_natCast, hfull] at hperm
    show (staged_events ++ dispatch_events (tiled_tasks rt (N : Int) TS) ++
      closing_events rt tiled_text).count (Event.write_v3 i) = _
    rw [List.count_append, List.count_append, count_write_staged, count_write_dispatch,
      hperm.count_eq, count_range]
    simp [closing_events]

/-- Two tiles: the tasks of 2048 elements are the indices 0 to 2047 in order. -/
theorem tile_mapping_is_a_bijection_witness :
    (tiled_domain ((2048 : Nat) : Int) TS).map (tiled_index.global TS) = List.range 2048 ∧
    tiled_index.mk 1 1023 ∈ tiled_domain ((2048 : Nat) : Int) TS ∧
    tiled_index.global TS (tiled_index.mk 1 1023) = 2047 :=
  ⟨(@tile_mapping_is_a_bijection Int _ 2048 (by decide)).1,
    ((@tile_mapping_is_a_bijection Int _ 2048 (by decide)).2.2.2.2.1 2047 (by decide)).1,
    ((@tile_mapping_is_a_bijection Int _ 2048 (by decide)).2.2.2.2.1 2047 (by decide)).2⟩

/-! ## C9 : the timed region of the parallel adders -/

theorem timed_dispatch_events (tasks : List Nat) :
    ∀ e ∈ dispatch_events tasks, timed_event e = true := by
  intro e h
  simp only [dispatch_events, List.mem_append, List.mem_singleton] at h
  rcases h with (h | h) | h
  · subst h; rfl
  · have := inner_kernel_accesses tasks e h
    cases e <;> simp_all [timed_event, inner_event]
  · subst h; rfl

/-- After staged views the events of a call of a parallel adder are: the three
view constructions and the discard, the start timestamp, then only events of
the dispatch (the synchronization among them when nothing was raised), the
end timestamp and the timing line. -/
theorem adder_result_timed {α : Type} (rt : Runtime α) (text : String)
    (raise : Option String) (tasks : List Nat) (v3 out : List α) :
    ∃ mid : List Event, (adder_result rt text raise tasks v3 out).trace
        = [Event.view_ctor 1, Event.view_ctor 2, Event.view_ctor 3, Event.discard_data,
            Event.now] ++ mid ++
          [Event.now, Event.timing text (rt.clock 1 - rt.clock 0)] ∧
      (∀ e ∈ mid, timed_event e = true) ∧ Event.parallel_for_each ∈ mid ∧
      (raise = none → Event.synchronize ∈ mid) := by
  cases raise with
  | some what =>
    refine ⟨[Event.parallel_for_each, Event.message_box what], ?_, ?_, by simp, ?_⟩
    · simp [adder_result, staged_events, closing_events]
    · intro e he
      simp only [List.mem_cons, List.mem_singleton, List.not_mem_nil, or_false] at he
      rcases he with rfl | rfl <;> rfl
    · intro h; cases h
  | none =>
    cases hsy : rt.synchronize with
    | some what =>
      refine ⟨dispatch_events tasks ++ [Event.message_box what], ?_, ?_, ?_, ?_⟩
      · simp [adder_result, hsy, staged_events, closing_events]
      · intro e he
        rw [List.mem_append] at he
        rcases he with he | he
        · exact timed_dispatch_events tasks e he
        · simp only [List.mem_singleton] at he
          subst he; rfl
      · simp [dispatch_events]
      · intro _; simp [dispatch_events]
    | none =>
      refine ⟨dispatch_events tasks, ?_, timed_dispatch_events tasks, ?_, ?_⟩
      · simp [adder_result, hsy, staged_events, closing_events]
      · simp [dispatch_events]
      · intro _; simp [dispatch_events]

/-- C9, as stated, fails: in both parallel adders the three views are
constructed and the output view is discarded before the start timestamp is
taken; the first five events of a call are the three view constructions, the
discard and only then `now()`. -/
theorem views_are_built_before_the_clock_starts :
    (vector_add_amp quiet 3 [1, 2, 3] [10, 20, 30] [0, 0, 0]).toOption.map
        (fun r => r.trace.take 5)
      = some [Event.view_ctor 1, Event.view_ctor 2, Event.view_ctor 3, Event.discard_data,
          Event.now] ∧
    (vector_add_tiled_amp quiet 3 [1, 2, 3] [10, 20, 30] [0, 0, 0]).toOption.map
        (fun r => r.trace.take 5)
      = some [Event.view_ctor 1, Event.view_ctor 2, Event.view_ctor 3, Event.discard_data,
          Event.now] := by
  decide

/-- C9, amended: in every call of `vector_add_amp` and of `vector_add_tiled_amp`
whose views are staged, the start timestamp is taken after the three views are
constructed and the output view is discarded, and the end timestamp after the
`try` block; between the two timestamps lie only the dispatch with its element
accesses, the synchronization (always there when nothing was raised) and the
error dialog, so the reported time spans dispatch and synchronization and
never a view construction. -/
theorem timed_region_of_parallel_adders {α : Type} [Add α] (rt rt2 : Runtime α)
    (size : Int) (N : Nat) (hn : size.toNat = N) (v1 v2 v3 : List α)
    (h1 : v1.length = N) (h2 : v2.length = N) (h3 : v3.length = N)
    (hst : rt.stages size N N N)
    (hs : (rt.schedule (flat_domain size)).Perm (flat_domain size))
    (hst2 : rt2.stages size N N N)
    (hs2 : (rt2.schedule_tiled (tiled_domain size TS)).Perm (tiled_domain size TS)) :
    (∃ (r : Run α) (mid : List Event), vector_add_amp rt size v1 v2 v3 = Except.ok r ∧
      r.trace = [Event.view_ctor 1, Event.view_ctor 2, Event.view_ctor 3,
          Event.discard_data, Event.now] ++ mid ++
        [Event.now, Event.timing amp_text (rt.clock 1 - rt.clock 0)] ∧
      (∀ e ∈ mid, timed_event e = true) ∧ Event.parallel_for_each ∈ mid ∧
      (rt.dispatch size = none → Event.synchronize ∈ mid)) ∧
    (∃ (r : Run α) (mid : List Event),
      vector_add_tiled_amp rt2 size v1 v2 v3 = Except.ok r ∧
      r.trace = [Event.view_ctor 1, Event.view_ctor 2, Event.view_ctor 3,
          Event.discard_data, Event.now] ++ mid ++
        [Event.now, Event.timing tiled_text (rt2.clock 1 - rt2.clock 0)] ∧
      (∀ e ∈ mid, timed_event e = true) ∧ Event.parallel_for_each ∈ mid ∧
      (rt2.dispatch_tiled size TS = none → Event.synchronize ∈ mid)) := by
  constructor
  · have hrun := vector_add_amp_run rt size v1 v2 v3 N hn h1 h2 h3 hst hs
    obtain ⟨mid, htr, hmid, hp, hsy⟩ := adder_result_timed rt amp_text (rt.dispatch size)
      (rt.schedule (flat_domain size)) v3 (parallel_sum v1 v2)
    exact ⟨_, mid, hrun, htr, hmid, hp, hsy⟩
  · obtain ⟨out, _, hrun⟩ :=
      vector_add_tiled_amp_run rt2 size v1 v2 v3 N hn h1 h2 h3 hst2 hs2
    obtain ⟨mid, htr, hmid, hp, hsy⟩ := adder_result_timed rt2 tiled_text
      (rt2.dispatch_tiled size TS) (tiled_tasks rt2 size TS) v3 out
    exact ⟨_, mid, hrun, htr, hmid, hp, hsy⟩

/-- The timed region of both adders on three elements, on a runtime that raises
nothing and on one whose dispatch raises. -/
theorem timed_region_of_parallel_adders_witness :
    (∃ (r : Run Int) (mid : List Event),
      vector_add_amp quiet 3 [1, 2, 3] [10, 20, 30] [0, 0, 0] = Except.ok r ∧
      r.trace = [Event.view_ctor 1, Event.view_ctor 2, Event.view_ctor 3,
          Event.discard_data, Event.now] ++ mid ++
        [Event.now, Event.timing amp_text (quiet.clock 1 - quiet.clock 0)] ∧
      (∀ e ∈ mid, timed_event e = true) ∧ Event.parallel_for_each ∈ mid ∧
      (quiet.dispatch 3 = none → Event.synchronize ∈ mid)) ∧
    (∃ (r : Run Int) (mid : List Event),
      vector_add_tiled_amp failing_dispatch 3 [1, 2, 3] [10, 20, 30] [0, 0, 0]
        = Except.ok r ∧
      r.trace = [Event.view_ctor 1, Event.view_ctor 2, Event.view_ctor 3,
          Event.discard_data, Event.now] ++ mid ++
        [Event.now, Event.timing tiled_text
          (failing_dispatch.clock 1 - failing_dispatch.clock 0)] ∧
      (∀ e ∈ mid, timed_event e = true) ∧ Event.parallel_for_each ∈ mid ∧
      (failing_dispatch.dispatch_tiled 3 TS = none → Event.synchronize ∈ mid)) :=
  timed_region_of_parallel_adders quiet failing_dispatch 3 3 rfl [1, 2, 3] [10, 20, 30]
    [0, 0, 0] rfl rfl rfl (by decide) (quiet_schedule _) (by decide) (List.Perm.refl _)

/-! ## C10 : the harness -/

end IntroAmp
